/-
  Verification of the react-loop-detector hook-loop analysis engine.

  The definitions below are a shallow embedding of the analyzer's core
  modules (guard-analyzer.ts, effect-analyzer.ts, orchestrator.ts, utils.ts)
  over an explicit Babel-style AST type.  Node identity (JavaScript object
  reference equality, used by the source for set membership) is modelled by
  node *positions*: every node occurrence in a tree has a unique path of
  child indices from the root, which coincides with reference identity on a
  well-formed Babel AST.
-/
import Mathlib

namespace ReactLoopDetector

/-- Insertion-order duplicate removal, the semantics of the JavaScript
idiom `[...new Set(xs)]` used by the analyzer: keeps the first occurrence
of each element. -/
def uniq (xs : List String) : List String :=
  go xs []
where
  /-- Fold keeping elements not seen before (in first-occurrence order). -/
  go : List String → List String → List String
  | [], _ => []
  | x :: rest, seen =>
    if x ∈ seen then go rest seen else x :: go rest (x :: seen)

/--
Babel-style AST nodes, restricted to the constructors the analyzer's core
inspects.  Children carry no source locations (`loc`); where the source
reads `node.loc?.start.line || 0` the embedding uses `0`.
`FunctionDeclaration` stores its `id` directly as an optional name, and
arrow/function expressions keep only their body (parameters are never
inspected by the embedded functions).
-/
inductive Node where
  | Identifier (name : String)
  | NullLiteral
  | BooleanLiteral (value : Bool)
  | NumericLiteral (value : Int)
  | StringLiteral (value : String)
  | UnaryExpression (operator : String) (argument : Node)
  | BinaryExpression (operator : String) (left right : Node)
  | LogicalExpression (operator : String) (left right : Node)
  | MemberExpression (object property : Node) (computed : Bool)
  | CallExpression (callee : Node) (arguments : List Node)
  | SpreadElement (argument : Node)
  | ObjectExpression (properties : List Node)
  | ObjectProperty (key value : Node)
  | ObjectMethod (key : Node) (body : Node)
  | ArrayExpression (elements : List Node)
  | ArrowFunctionExpression (body : Node)
  | FunctionExpression (body : Node)
  | FunctionDeclaration (id : Option String) (body : Node)
  | VariableDeclarator (id : Node) (init : Option Node)
  | VariableDeclaration (declarations : List Node)
  | ExpressionStatement (expression : Node)
  | BlockStatement (body : List Node)
  | IfStatement (test consequent : Node) (alternate : Option Node)
  | ReturnStatement (argument : Option Node)
  | AssignmentExpression (left right : Node)

mutual
/-- Structural equality of nodes.  The source compares nodes with
JavaScript `===` (reference identity); on concrete trees used in this
development every compared subtree occurs once, so structural equality
coincides with identity. -/
def nodeBEq : Node → Node → Bool
  | .Identifier a, .Identifier b => a == b
  | .NullLiteral, .NullLiteral => true
  | .BooleanLiteral a, .BooleanLiteral b => a == b
  | .NumericLiteral a, .NumericLiteral b => a == b
  | .StringLiteral a, .StringLiteral b => a == b
  | .UnaryExpression o1 a1, .UnaryExpression o2 a2 => o1 == o2 && nodeBEq a1 a2
  | .BinaryExpression o1 l1 r1, .BinaryExpression o2 l2 r2 =>
    o1 == o2 && nodeBEq l1 l2 && nodeBEq r1 r2
  | .LogicalExpression o1 l1 r1, .LogicalExpression o2 l2 r2 =>
    o1 == o2 && nodeBEq l1 l2 && nodeBEq r1 r2
  | .MemberExpression o1 p1 c1, .MemberExpression o2 p2 c2 =>
    nodeBEq o1 o2 && nodeBEq p1 p2 && c1 == c2
  | .CallExpression c1 a1, .CallExpression c2 a2 => nodeBEq c1 c2 && nodeListBEq a1 a2
  | .SpreadElement a1, .SpreadElement a2 => nodeBEq a1 a2
  | .ObjectExpression p1, .ObjectExpression p2 => nodeListBEq p1 p2
  | .ObjectProperty k1 v1, .ObjectProperty k2 v2 => nodeBEq k1 k2 && nodeBEq v1 v2
  | .ObjectMethod k1 b1, .ObjectMethod k2 b2 => nodeBEq k1 k2 && nodeBEq b1 b2
  | .ArrayExpression e1, .ArrayExpression e2 => nodeListBEq e1 e2
  | .ArrowFunctionExpression b1, .ArrowFunctionExpression b2 => nodeBEq b1 b2
  | .FunctionExpression b1, .FunctionExpression b2 => nodeBEq b1 b2
  | .FunctionDeclaration i1 b1, .FunctionDeclaration i2 b2 => i1 == i2 && nodeBEq b1 b2
  | .VariableDeclarator i1 n1, .VariableDeclarator i2 n2 =>
    nodeBEq i1 i2 && nodeOptBEq n1 n2
  | .VariableDeclaration d1, .VariableDeclaration d2 => nodeListBEq d1 d2
  | .ExpressionStatement e1, .ExpressionStatement e2 => nodeBEq e1 e2
  | .BlockStatement b1, .BlockStatement b2 => nodeListBEq b1 b2
  | .IfStatement t1 c1 a1, .IfStatement t2 c2 a2 =>
    nodeBEq t1 t2 && nodeBEq c1 c2 && nodeOptBEq a1 a2
  | .ReturnStatement a1, .ReturnStatement a2 => nodeOptBEq a1 a2
  | .AssignmentExpression l1 r1, .AssignmentExpression l2 r2 =>
    nodeBEq l1 l2 && nodeBEq r1 r2
  | _, _ => false

/-- Structural equality of node lists. -/
def nodeListBEq : List Node → List Node → Bool
  | [], [] => true
  | x :: xs, y :: ys => nodeBEq x y && nodeListBEq xs ys
  | _, _ => false

/-- Structural equality of optional nodes. -/
def nodeOptBEq : Option Node → Option Node → Bool
  | none, none => true
  | some a, some b => nodeBEq a b
  | _, _ => false
end

/-- A node occurrence's position: the child index taken at each step from
the traversal root.  Distinct occurrences always have distinct paths, so
path equality models JavaScript reference equality of node objects. -/
abbrev Path := List Nat

/-- One visited node occurrence: the node, its path from the traversal
root, and the ancestor chain `node :: parent :: ... :: root` (the shape
`getAncestorStack` builds in effect-analyzer.ts). -/
structure Entry where
  node : Node
  path : Path
  stack : List Node

mutual
/-- Preorder walk producing every node occurrence of the subtree rooted at
`n` (including `n` itself), with paths extending `p` and ancestor stacks
extending `parents`.  Child indices follow Babel's visitor-key order for
each constructor. -/
def walkNode (n : Node) (p : Path) (parents : List Node) : List Entry :=
  let st := n :: parents
  let rest : List Entry :=
    match n with
    | .Identifier _ => []
    | .NullLiteral => []
    | .BooleanLiteral _ => []
    | .NumericLiteral _ => []
    | .StringLiteral _ => []
    | .UnaryExpression _ a => walkNode a (p ++ [0]) st
    | .BinaryExpression _ l r => walkNode l (p ++ [0]) st ++ walkNode r (p ++ [1]) st
    | .LogicalExpression _ l r => walkNode l (p ++ [0]) st ++ walkNode r (p ++ [1]) st
    | .MemberExpression o pr _ => walkNode o (p ++ [0]) st ++ walkNode pr (p ++ [1]) st
    | .CallExpression c args => walkNode c (p ++ [0]) st ++ walkList args 1 p st
    | .SpreadElement a => walkNode a (p ++ [0]) st
    | .ObjectExpression props => walkList props 0 p st
    | .ObjectProperty k v => walkNode k (p ++ [0]) st ++ walkNode v (p ++ [1]) st
    | .ObjectMethod k b => walkNode k (p ++ [0]) st ++ walkNode b (p ++ [1]) st
    | .ArrayExpression els => walkList els 0 p st
    | .ArrowFunctionExpression b => walkNode b (p ++ [0]) st
    | .FunctionExpression b => walkNode b (p ++ [0]) st
    | .FunctionDeclaration _ b => walkNode b (p ++ [0]) st
    | .VariableDeclarator i init =>
      walkNode i (p ++ [0]) st ++
        (match init with
         | some e => walkNode e (p ++ [1]) st
         | none => [])
    | .VariableDeclaration ds => walkList ds 0 p st
    | .ExpressionStatement e => walkNode e (p ++ [0]) st
    | .BlockStatement body => walkList body 0 p st
    | .IfStatement t c alt =>
      walkNode t (p ++ [0]) st ++ walkNode c (p ++ [1]) st ++
        (match alt with
         | some a => walkNode a (p ++ [2]) st
         | none => [])
    | .ReturnStatement arg =>
      match arg with
      | some a => walkNode a (p ++ [0]) st
      | none => []
    | .AssignmentExpression l r => walkNode l (p ++ [0]) st ++ walkNode r (p ++ [1]) st
  { node := n, path := p, stack := st } :: rest

/-- Walk a list of sibling nodes whose first element has child index `i`. -/
def walkList (ns : List Node) (i : Nat) (p : Path) (st : List Node) : List Entry :=
  match ns with
  | [] => []
  | c :: cs => walkNode c (p ++ [i]) st ++ walkList cs (i + 1) p st
end

/-- All node occurrences strictly below `n`, in preorder — the set of nodes
`@babel/traverse` fires visitors on when traversing `n` (the traversal root
itself is not visited). -/
def descendantEntries (n : Node) : List Entry :=
  (walkNode n [] []).tail

/-- The nodes strictly below `n`, in preorder. -/
def descendantNodes (n : Node) : List Node :=
  (descendantEntries n).map (·.node)

/-! ## utils.ts -/

mutual
/-- `containsNode` from utils.ts: whether `target` occurs in the subtree
`tree` (the source descends through every child key testing `===`). -/
def containsNode : Node → Node → Bool
  | tree, target =>
    nodeBEq tree target ||
      (match tree with
       | .Identifier _ => false
       | .NullLiteral => false
       | .BooleanLiteral _ => false
       | .NumericLiteral _ => false
       | .StringLiteral _ => false
       | .UnaryExpression _ a => containsNode a target
       | .BinaryExpression _ l r => containsNode l target || containsNode r target
       | .LogicalExpression _ l r => containsNode l target || containsNode r target
       | .MemberExpression o pr _ => containsNode o target || containsNode pr target
       | .CallExpression c args => containsNode c target || containsNodeList args target
       | .SpreadElement a => containsNode a target
       | .ObjectExpression props => containsNodeList props target
       | .ObjectProperty k v => containsNode k target || containsNode v target
       | .ObjectMethod k b => containsNode k target || containsNode b target
       | .ArrayExpression els => containsNodeList els target
       | .ArrowFunctionExpression b => containsNode b target
       | .FunctionExpression b => containsNode b target
       | .FunctionDeclaration _ b => containsNode b target
       | .VariableDeclarator i init =>
         containsNode i target ||
           (match init with
            | some e => containsNode e target
            | none => false)
       | .VariableDeclaration ds => containsNodeList ds target
       | .ExpressionStatement e => containsNode e target
       | .BlockStatement body => containsNodeList body target
       | .IfStatement t c alt =>
         containsNode t target || containsNode c target ||
           (match alt with
            | some a => containsNode a target
            | none => false)
       | .ReturnStatement arg =>
         match arg with
         | some a => containsNode a target
         | none => false
       | .AssignmentExpression l r => containsNode l target || containsNode r target)

/-- List form of `containsNode`. -/
def containsNodeList : List Node → Node → Bool
  | [], _ => false
  | n :: ns, target => containsNode n target || containsNodeList ns target
end

/-- `usesObjectSpread` from utils.ts: does a setter argument spread the
state variable (object spread, `Object.assign`, or array spread)? -/
def usesObjectSpread (setterArg : Node) (stateVar : String) : Bool :=
  (match setterArg with
   | .ObjectExpression props =>
     props.any fun prop =>
       match prop with
       | .SpreadElement (.Identifier n) => n == stateVar
       | _ => false
   | _ => false) ||
  (match setterArg with
   | .CallExpression (.MemberExpression (.Identifier o) (.Identifier m) _) args =>
     o == "Object" && m == "assign" &&
       args.any fun arg =>
         match arg with
         | .Identifier n => n == stateVar
         | _ => false
   | _ => false) ||
  (match setterArg with
   | .ArrayExpression els =>
     els.any fun el =>
       match el with
       | .SpreadElement (.Identifier n) => n == stateVar
       | _ => false
   | _ => false)

/-- Babel's `isReferencedIdentifier` restricted to the node shapes of this
embedding: given the parent node and the child index of the identifier in
the parent, is the identifier a value reference (as opposed to a member
property name, an object key, a binding position, or an assignment
target)? `none` parent (traversal root) counts as referenced. -/
def isReferencedIdentAt : Option Node → Nat → Bool
  | some (.MemberExpression _ _ computed), 1 => computed
  | some (.MemberExpression _ _ _), _ => true
  | some (.ObjectProperty _ _), 0 => false
  | some (.VariableDeclarator _ _), 0 => false
  | some (.AssignmentExpression _ _), 0 => false
  | _, _ => true

/-- Whether an entry of a walk is an identifier named `name` in referenced
position (parent and child index recovered from the entry's stack and
path). -/
def entryIsReferencedIdent (e : Entry) (name : String) : Bool :=
  (match e.node with
   | .Identifier n => n == name
   | _ => false) &&
  isReferencedIdentAt (e.stack.tail.head?) (e.path.getLast?.getD 0)

/-- `conditionInvolvesState` from utils.ts: does the condition reference
the state variable?  The source traverses the condition with
`@babel/traverse`, which visits strict descendants only, so a bare
identifier condition is (faithfully) not detected. -/
def conditionInvolvesState (condition : Node) (stateVar : String) : Bool :=
  (descendantEntries condition).any fun e => entryIsReferencedIdent e stateVar

/-! ## guard-analyzer.ts -/

/-- Arguments of a call node (`call.arguments` in the source, where the
value is statically a `CallExpression`). -/
def callArguments : Node → List Node
  | .CallExpression _ args => args
  | _ => []

/-- Callee of a call node (`call.callee`). -/
def calleeOf : Node → Option Node
  | .CallExpression c _ => some c
  | _ => none

/-- Is the node the identifier of the given state variable (`node.type ===
&#39;Identifier&#39; && node.name === stateVar` in the source)? -/
def isStateIdent (sv : String) : Node → Bool
  | .Identifier n => n == sv
  | _ => false

/-- Is the node an identifier or a member expression? -/
def isIdentOrMember : Node → Bool
  | .Identifier _ => true
  | .MemberExpression _ _ _ => true
  | _ => false

/-- Is the node a member expression whose object is the state variable? -/
def isMemberOfState (sv : String) : Node → Bool
  | .MemberExpression (.Identifier n) _ _ => n == sv
  | _ => false

/-- Is the node an `IfStatement`? -/
def isIfStatementB : Node → Bool
  | .IfStatement _ _ _ => true
  | _ => false

/-- `isStrictResetValue` from `analyzeRenderGuardCondition`: `null`,
`undefined`, `false`, or an empty array/object literal. -/
def isStrictResetValue : Option Node → Bool
  | some .NullLiteral => true
  | some (.Identifier n) => n == "undefined"
  | some (.BooleanLiteral false) => true
  | some (.ArrayExpression els) => els.isEmpty
  | some (.ObjectExpression props) => props.isEmpty
  | _ => false

/-- `isFalsyResetValue` from `analyzeRenderGuardCondition`: the falsy
literals `0` and the empty string. -/
def isFalsyResetValue : Option Node → Bool
  | some (.NumericLiteral v) => v == 0
  | some (.StringLiteral s) => s == ""
  | _ => false

/-- A reset-value setter argument: strict or falsy reset. -/
def isResetArg (o : Option Node) : Bool :=
  isStrictResetValue o || isFalsyResetValue o

/-- Result of `analyzeCondition`: guard type, safety, optional warning. -/
structure CondGuardResult where
  type : String
  isSafe : Bool
  warning : Option String
  deriving DecidableEq, Repr

/-- `GuardedModification` from types.ts. -/
structure GuardedModification where
  setter : String
  stateVariable : String
  guardType : String
  isSafe : Bool
  warning : Option String
  deriving DecidableEq, Repr

/-- Warning text attached to the `object-spread-risk` classification (the
source interpolates the state variable name into this sentence; the
embedding keeps a fixed sentence since the text itself is display-only). -/
def objectSpreadWarning : String :=
  "Guard checks property of state but setter creates new object reference"

/-- `analyzeCondition` from guard-analyzer.ts.  The source tries its four
patterns in sequence; since each pattern is keyed on a distinct condition
constructor (unary negation, bare identifier, binary comparison, logical
AND) the sequence collapses to a single match.  `setterName` is the
optional fifth parameter of the source function. -/
def analyzeCondition (condition : Node) (stateVar : String) (setterCall : Node)
    (setterName : Option String) : Option CondGuardResult :=
  match condition with
  | .UnaryExpression op arg =>
    -- Pattern 1: toggle guard `if (!stateVar)`
    if op == "!" then
      match arg with
      | .Identifier n =>
        if n == stateVar then
          match (callArguments setterCall).head? with
          | some setterArg =>
            match setterArg with
            | .BooleanLiteral true => some { type := "toggle-guard", isSafe := true, warning := none }
            | .Identifier m =>
              if m == stateVar then none
              else some { type := "toggle-guard", isSafe := true, warning := none }
            | _ => some { type := "toggle-guard", isSafe := true, warning := none }
          | none =>
            -- No setter arguments: indirect function call pattern; safe
            -- unless the callee is the setter itself.
            match calleeOf setterCall with
            | some (.Identifier calleeName) =>
              if (match setterName with
                  | some s => calleeName != s
                  | none => true) then
                some { type := "toggle-guard", isSafe := true, warning := none }
              else none
            | _ => none
        else none
      | _ => none
    else none
  | .Identifier n =>
    -- Pattern 1b: `if (stateVar)` with a falsy setter argument
    if n == stateVar then
      match (callArguments setterCall).head? with
      | some (.BooleanLiteral false) => some { type := "toggle-guard", isSafe := true, warning := none }
      | some .NullLiteral => some { type := "toggle-guard", isSafe := true, warning := none }
      | some (.Identifier m) =>
        if m == "undefined" then some { type := "toggle-guard", isSafe := true, warning := none }
        else none
      | _ => none
    else none
  | .BinaryExpression op left right =>
    -- Pattern 2: equality guard `!==` / `!=`
    if op == "!==" || op == "!=" then
      if isStateIdent stateVar left || isStateIdent stateVar right then
        some { type := "equality-guard", isSafe := true, warning := none }
      else
        if isMemberOfState stateVar left || isMemberOfState stateVar right then
          match (callArguments setterCall).head? with
          | some setterArg =>
            if usesObjectSpread setterArg stateVar then
              some { type := "object-spread-risk", isSafe := false,
                     warning := some objectSpreadWarning }
            else some { type := "equality-guard", isSafe := true, warning := none }
          | none => some { type := "equality-guard", isSafe := true, warning := none }
        else none
    else none
  | .LogicalExpression op l r =>
    -- Pattern 3: logical AND, accept if either side is safe
    if op == "&&" then
      let leftResult := analyzeCondition l stateVar setterCall setterName
      let rightResult := analyzeCondition r stateVar setterCall setterName
      match leftResult with
      | some g =>
        if g.isSafe then some g
        else
          match rightResult with
          | some g2 => if g2.isSafe then some g2 else none
          | none => none
      | none =>
        match rightResult with
        | some g2 => if g2.isSafe then some g2 else none
        | none => none
    else none
  | _ => none

/-- `checkEarlyReturnPattern` from guard-analyzer.ts, taking the body list
of the enclosing `BlockStatement`. -/
def checkEarlyReturnPattern (blockBody : List Node) (setterCall : Node)
    (stateVar : String) : Bool :=
  match blockBody.findIdx? (fun stmt => containsNode stmt setterCall) with
  | none => false
  | some 0 => false
  | some setterIdx =>
    (blockBody.take setterIdx).any fun stmt =>
      match stmt with
      | .IfStatement test consequent _ =>
        let hasReturn :=
          match consequent with
          | .ReturnStatement _ => true
          | .BlockStatement [.ReturnStatement _] => true
          | _ => false
        hasReturn && conditionInvolvesState test stateVar
      | _ => false

/-- The ancestor scan of `analyzeConditionalGuard`: the source iterates
`ancestorStack` from its last element down to index 0, i.e. outermost
ancestor first, checking each `IfStatement` condition and each
`BlockStatement` for the early-return pattern. -/
def guardScan (setterCall : Node) (setterName stateVar : String) :
    List Node → Option GuardedModification
  | [] => none
  | ancestor :: rest =>
    match ancestor with
    | .IfStatement test _ _ =>
      match analyzeCondition test stateVar setterCall (some setterName) with
      | some g =>
        some { setter := setterName, stateVariable := stateVar,
               guardType := g.type, isSafe := g.isSafe, warning := g.warning }
      | none => guardScan setterCall setterName stateVar rest
    | .BlockStatement body =>
      if checkEarlyReturnPattern body setterCall stateVar then
        some { setter := setterName, stateVariable := stateVar,
               guardType := "early-return", isSafe := true, warning := none }
      else guardScan setterCall setterName stateVar rest
    | _ => guardScan setterCall setterName stateVar rest

/-- `analyzeConditionalGuard` from guard-analyzer.ts.  `ancestorStack` is
nearest-first (`[setterCall, parent, ..., root]`); the source walks it from
the end, so the scan list is the reversed stack.  The unused
`_allStateVars` parameter of the source is omitted. -/
def analyzeConditionalGuard (setterCall : Node) (ancestorStack : List Node)
    (setterName : String) (stateVar : Option String) : Option GuardedModification :=
  match stateVar with
  | none => none
  | some sv => guardScan setterCall setterName sv ancestorStack.reverse

/-- `isFalsyLiteralNode` from guard-analyzer.ts (argument may be absent). -/
def isFalsyLiteralNode : Option Node → Bool
  | some (.BooleanLiteral false) => true
  | some (.NumericLiteral v) => v == 0
  | some (.StringLiteral s) => s == ""
  | some .NullLiteral => true
  | some (.Identifier n) => n == "undefined"
  | _ => false

/-- `RenderPhaseGuardResult` from guard-analyzer.ts. -/
structure RenderPhaseGuardResult where
  isSafe : Bool
  guardType : String
  warning : Option String
  deriving DecidableEq, Repr

/-- `nodesAreEquivalent` from guard-analyzer.ts: recursive structural
equivalence of expressions, treating `a.prop` and `a[&#39;prop&#39;]`
member forms as equal. -/
def nodesAreEquivalent : Node → Node → Bool
  | .Identifier a, .Identifier b => a == b
  | .MemberExpression o1 p1 c1, .MemberExpression o2 p2 c2 =>
    nodesAreEquivalent o1 o2 &&
      (match p1, c1, p2, c2 with
       | .Identifier n1, false, .Identifier n2, false => n1 == n2
       | .StringLiteral s1, true, .StringLiteral s2, true => s1 == s2
       | .Identifier n1, false, .StringLiteral s2, true => n1 == s2
       | .StringLiteral s1, true, .Identifier n2, false => s1 == n2
       | q1, _, q2, _ => nodesAreEquivalent q1 q2)
  | .NumericLiteral a, .NumericLiteral b => a == b
  | .StringLiteral a, .StringLiteral b => a == b
  | .BooleanLiteral a, .BooleanLiteral b => a == b
  | .NullLiteral, .NullLiteral => true
  | _, _ => false

/-- The first derived-state branch of `analyzeRenderGuardCondition`: the
comparison has the state on one side and the setter argument is
structurally equivalent to the other side. -/
def renderDerivedEquivBranch (stateVar : String) (setterCall : Node)
    (left right : Node) : Option RenderPhaseGuardResult :=
  if isStateIdent stateVar left || isStateIdent stateVar right then
    let otherSide := if isStateIdent stateVar left then right else left
    match (callArguments setterCall).head? with
    | some setterArg =>
      if nodesAreEquivalent setterArg otherSide then
        some { isSafe := true, guardType := "derived-state", warning := none }
      else none
    | none => none
  else none

/-- The second derived-state branch of `analyzeRenderGuardCondition`
(derived state for a *different* state variable): both comparands are
identifiers or member expressions and the setter argument is a constant
reset value. -/
def renderDerivedResetBranch (setterCall : Node) (left right : Node) :
    Option RenderPhaseGuardResult :=
  if isIdentOrMember left && isIdentOrMember right then
    if isResetArg (callArguments setterCall).head? then
      some { isSafe := true, guardType := "derived-state", warning := none }
    else none
  else none

/-- `analyzeRenderGuardCondition` from guard-analyzer.ts.  As with
`analyzeCondition`, the source's sequential pattern checks are keyed on
distinct condition constructors, so they collapse to a single match. -/
def analyzeRenderGuardCondition (condition : Node) (stateVar : String)
    (setterCall : Node) : Option RenderPhaseGuardResult :=
  match condition with
  | .BinaryExpression op left right =>
    if op == "!==" || op == "!=" then
      -- Pattern 1: derived state `if (prop !== state) setState(prop)`,
      -- falling back to the reset-value form of the pattern
      match renderDerivedEquivBranch stateVar setterCall left right with
      | some r => some r
      | none => renderDerivedResetBranch setterCall left right
    else none
  | .UnaryExpression op arg =>
    -- Pattern 2: toggle guard `if (!stateVar)` with a non-falsy argument
    if op == "!" then
      match arg with
      | .Identifier n =>
        if n == stateVar then
          match (callArguments setterCall).head? with
          | some setterArg =>
            if !isFalsyLiteralNode (some setterArg) then
              some { isSafe := true, guardType := "toggle-guard", warning := none }
            else none
          | none => none
        else none
      | _ => none
    else none
  | .Identifier n =>
    -- Pattern 3: `if (stateVar)` with a falsy setter argument
    if n == stateVar then
      if isFalsyLiteralNode (callArguments setterCall).head? then
        some { isSafe := true, guardType := "toggle-guard", warning := none }
      else none
    else none
  | .LogicalExpression op l r =>
    -- Pattern 4: logical AND
    if op == "&&" then
      let leftResult := analyzeRenderGuardCondition l stateVar setterCall
      let rightResult := analyzeRenderGuardCondition r stateVar setterCall
      match leftResult with
      | some g =>
        if g.isSafe then some g
        else
          match rightResult with
          | some g2 => if g2.isSafe then some g2 else none
          | none => none
      | none =>
        match rightResult with
        | some g2 => if g2.isSafe then some g2 else none
        | none => none
    else none
  | _ => none

/-- The ancestor scan of `analyzeRenderPhaseGuard`: nearest-first over
`ancestorStack[1..]`, returning the first recognized condition result,
tracking whether any `IfStatement` was seen. -/
def renderGuardScan (setterCall : Node) (stateVar : String) :
    List Node → Bool → Option RenderPhaseGuardResult
  | [], isGuarded =>
    if isGuarded then some { isSafe := false, guardType := "unknown", warning := none }
    else none
  | ancestor :: rest, isGuarded =>
    match ancestor with
    | .IfStatement test _ _ =>
      match analyzeRenderGuardCondition test stateVar setterCall with
      | some r => some r
      | none => renderGuardScan setterCall stateVar rest true
    | _ => renderGuardScan setterCall stateVar rest isGuarded

/-- `analyzeRenderPhaseGuard` from guard-analyzer.ts.  Searches every
ancestor `IfStatement` (indices 1 and up of the nearest-first stack) for a
recognized safe pattern; if at least one `IfStatement` encloses the call
but none matches, the verdict is `unknown` and unsafe; with no enclosing
`IfStatement` at all the result is `null`.  The source's `_setterName`
parameter is unused and omitted here. -/
def analyzeRenderPhaseGuard (setterCall : Node) (ancestorStack : List Node)
    (stateVar : String) : Option RenderPhaseGuardResult :=
  renderGuardScan setterCall stateVar (ancestorStack.drop 1) false

/-! ## effect-analyzer.ts -/

/-- `EVENT_LISTENER_METHODS` from effect-analyzer.ts. -/
def EVENT_LISTENER_METHODS : List String :=
  ["addEventListener", "removeEventListener", "on", "off", "once",
   "addListener", "removeListener", "subscribe", "unsubscribe",
   "setTimeout", "setInterval", "requestAnimationFrame",
   "then", "catch", "finally",
   "map", "filter", "forEach", "reduce", "find", "some", "every"]

/-- `ASYNC_CALLBACK_FUNCTIONS` from effect-analyzer.ts: the fixed allowlist
of deferred-receiver APIs. -/
def ASYNC_CALLBACK_FUNCTIONS : List String :=
  ["setTimeout", "setInterval", "requestAnimationFrame", "requestIdleCallback",
   "then", "catch", "finally",
   "onSnapshot", "onAuthStateChanged", "onValue", "onChildAdded",
   "onChildChanged", "onChildRemoved",
   "subscribe", "observe", "addEventListener"]

/-- The receiver names treated as event listeners (vs generic callback
arguments) when recording function references. -/
def LISTENER_CONTEXT_METHODS : List String :=
  ["addEventListener", "removeEventListener", "on", "off",
   "addListener", "removeListener"]

/-- A function identifier passed by reference to a listener/callback API. -/
structure FunctionReference where
  functionName : String
  context : String
  receivingFunction : String
  deriving DecidableEq, Repr

/-- A `ref.current = ...` mutation record (source line numbers are not
modelled; the source falls back to 0 when `loc` is absent). -/
structure RefMutation where
  refName : String
  assignedValue : Option String
  usesStateValue : Bool
  line : Nat
  deriving DecidableEq, Repr

/-- `StateInteraction` from types.ts. -/
structure StateInteraction where
  reads : List String
  modifications : List String
  conditionalModifications : List String
  functionalUpdates : List String
  deferredModifications : List String
  guardedModifications : List GuardedModification
  functionReferences : List FunctionReference
  refMutations : List RefMutation
  cleanupModifications : List String
  deriving DecidableEq, Repr

/-- The empty interaction record `analyzeStateInteractions` starts from. -/
def emptyInteraction : StateInteraction :=
  { reads := [], modifications := [], conditionalModifications := [],
    functionalUpdates := [], deferredModifications := [],
    guardedModifications := [], functionReferences := [],
    refMutations := [], cleanupModifications := [] }

/-- Is the node an arrow-function or function expression? -/
def isFunctionExpressionNode : Node → Bool
  | .ArrowFunctionExpression _ => true
  | .FunctionExpression _ => true
  | _ => false

/-- JavaScript `Map.set` on an association list: overwrite in place when
the key exists (keeping its original insertion position), else append. -/
def mapSet {α : Type} (m : List (String × α)) (k : String) (v : α) :
    List (String × α) :=
  if m.any (fun kv => kv.1 == k) then
    m.map fun kv => if kv.1 == k then (k, v) else kv
  else m ++ [(k, v)]

/-- JavaScript `Map.get` on an association list. -/
def mapGet {α : Type} (m : List (String × α)) (k : String) : Option α :=
  (m.find? (fun kv => kv.1 == k)).map (·.2)

/-- JavaScript `Set.add` on a list kept duplicate-free in insertion
order. -/
def setAdd (s : List String) (x : String) : List String :=
  if s.contains x then s else s ++ [x]

/-- `setterToState` as built by the source (`stateInfo.forEach((setter,
state) => setterToState.set(setter, state))`): later entries overwrite
earlier ones, so lookup finds the last state paired with the setter. -/
def setterToState (stateInfo : List (String × String)) (setter : String) :
    Option String :=
  (stateInfo.reverse.find? (fun kv => kv.2 == setter)).map (·.1)

/-- Accumulated state of the first traversal pass of
`analyzeStateInteractions`. -/
structure Pass1State where
  functionsPassedAsArgs : List String
  asyncCallbackPaths : List Path
  cleanupFunctionPaths : List Path
  namedAsyncCallbackRefs : List String
  localFunctions : List (String × Path)
  functionReferences : List FunctionReference

/-- Initial first-pass state. -/
def initPass1 : Pass1State :=
  { functionsPassedAsArgs := [], asyncCallbackPaths := [],
    cleanupFunctionPaths := [], namedAsyncCallbackRefs := [],
    localFunctions := [], functionReferences := [] }

/-- One visitor dispatch of the first pass of `analyzeStateInteractions`:
record returned cleanup closures, local function definitions, function
identifiers passed to listener APIs, and callbacks (inline or named)
passed to deferred-receiver APIs.  Node sets of the source become path
sets here. -/
def pass1Step (st : Pass1State) (e : Entry) : Pass1State :=
  match e.node with
  | .ReturnStatement (some arg) =>
    if isFunctionExpressionNode arg then
      { st with cleanupFunctionPaths := st.cleanupFunctionPaths ++ [e.path ++ [0]] }
    else st
  | .VariableDeclarator (.Identifier name) (some init) =>
    if isFunctionExpressionNode init then
      { st with localFunctions := mapSet st.localFunctions name (e.path ++ [1]) }
    else st
  | .FunctionDeclaration (some name) _ =>
    { st with localFunctions := mapSet st.localFunctions name e.path }
  | .CallExpression callee args =>
    let receivingFuncName : Option String :=
      match callee with
      | .Identifier n => some n
      | .MemberExpression _ (.Identifier pn) _ => some pn
      | _ => none
    match receivingFuncName with
    | none => st
    | some rf =>
      let st1 :=
        if EVENT_LISTENER_METHODS.contains rf then
          args.foldl
            (fun acc arg =>
              match arg with
              | .Identifier an =>
                { acc with
                  functionsPassedAsArgs := setAdd acc.functionsPassedAsArgs an,
                  functionReferences := acc.functionReferences ++
                    [{ functionName := an,
                       context :=
                         if LISTENER_CONTEXT_METHODS.contains rf then "event-listener"
                         else "callback-arg",
                       receivingFunction := rf }] }
              | _ => acc)
            st
        else st
      if ASYNC_CALLBACK_FUNCTIONS.contains rf then
        args.enum.foldl
          (fun acc (iarg : Nat × Node) =>
            if isFunctionExpressionNode iarg.2 then
              { acc with asyncCallbackPaths := acc.asyncCallbackPaths ++ [e.path ++ [1 + iarg.1]] }
            else
              match iarg.2 with
              | .Identifier an =>
                { acc with namedAsyncCallbackRefs := setAdd acc.namedAsyncCallbackRefs an }
              | _ => acc)
          st1
      else st1
  | _ => st

/-- Resolution step after the first pass: named function identifiers
passed to deferred receivers are resolved to their local definitions and
those function nodes join the async-callback set. -/
def resolveNamedAsyncRefs (st : Pass1State) : List Path :=
  st.namedAsyncCallbackRefs.foldl
    (fun acc name =>
      match mapGet st.localFunctions name with
      | some p => acc ++ [p]
      | none => acc)
    st.asyncCallbackPaths

/-- All strict-ancestor positions of a node occurrence at path `p` (the
positions `findParent` visits). -/
def properPrefixes (p : Path) : List Path :=
  (List.range p.length).map fun k => p.take k

/-- Context threaded through the main pass of
`analyzeStateInteractions`. -/
structure InteractionContext where
  stateInfo : List (String × String)
  refVars : List String
  localFunctionSetters : List (String × List String)
  asyncCallbackPaths : List Path
  cleanupFunctionPaths : List Path

/-- Setter names of the tracked state bindings. -/
def ctxSetterNames (ctx : InteractionContext) : List String :=
  ctx.stateInfo.map (·.2)

/-- State-variable names of the tracked state bindings. -/
def ctxStateNames (ctx : InteractionContext) : List String :=
  ctx.stateInfo.map (·.1)

/-- `isInsideAsyncCallback`: some strict ancestor of the occurrence is a
registered async-callback function node. -/
def isInsideAsyncCallback (ctx : InteractionContext) (p : Path) : Bool :=
  (properPrefixes p).any fun q => ctx.asyncCallbackPaths.contains q

/-- `isInsideCleanupFunction`: some strict ancestor is a returned cleanup
closure. -/
def isInsideCleanupFunction (ctx : InteractionContext) (p : Path) : Bool :=
  (properPrefixes p).any fun q => ctx.cleanupFunctionPaths.contains q

/-- `nodeReferencesState` from `analyzeStateInteractions`: does any strict
descendant identifier in referenced position name a state variable? -/
def nodeReferencesState (stateNames : List String) (n : Node) : Bool :=
  (descendantEntries n).any fun e =>
    (match e.node with
     | .Identifier nm => stateNames.contains nm
     | _ => false) &&
    isReferencedIdentAt (e.stack.tail.head?) (e.path.getLast?.getD 0)

/-- Handling of a direct setter call in the main pass: deferred wins over
cleanup, which wins over guard analysis; an unguarded call is an
unconditional modification. -/
def directSetterUpdate (ctx : InteractionContext) (st : StateInteraction)
    (e : Entry) (calleeName : String) : StateInteraction :=
  if isInsideAsyncCallback ctx e.path then
    { st with deferredModifications := st.deferredModifications ++ [calleeName] }
  else if isInsideCleanupFunction ctx e.path then
    { st with cleanupModifications := st.cleanupModifications ++ [calleeName] }
  else
    match analyzeConditionalGuard e.node e.stack calleeName
        (setterToState ctx.stateInfo calleeName) with
    | some g =>
      { st with
        guardedModifications := st.guardedModifications ++ [g],
        conditionalModifications :=
          if g.isSafe then st.conditionalModifications
          else st.conditionalModifications ++ [calleeName] }
    | none =>
      { st with modifications := st.modifications ++ [calleeName] }

/-- Handling of a call to a local function that transitively reaches
setters: same deferral/cleanup precedence, with the guard analysis applied
to the call site of the local function for each transitive setter. -/
def indirectCallUpdate (ctx : InteractionContext) (st : StateInteraction)
    (e : Entry) (transitiveSetters : List String) : StateInteraction :=
  if isInsideAsyncCallback ctx e.path then
    { st with deferredModifications := st.deferredModifications ++ transitiveSetters }
  else if isInsideCleanupFunction ctx e.path then
    { st with cleanupModifications := st.cleanupModifications ++ transitiveSetters }
  else
    transitiveSetters.foldl
      (fun acc setter =>
        match analyzeConditionalGuard e.node e.stack setter
            (setterToState ctx.stateInfo setter) with
        | some g =>
          { acc with
            guardedModifications := acc.guardedModifications ++ [g],
            conditionalModifications :=
              if g.isSafe then acc.conditionalModifications
              else acc.conditionalModifications ++ [setter] }
        | none =>
          { acc with modifications := acc.modifications ++ [setter] })
      st

/-- One visitor dispatch of the main pass of `analyzeStateInteractions`. -/
def mainPassStep (ctx : InteractionContext) (st : StateInteraction)
    (e : Entry) : StateInteraction :=
  match e.node with
  | .CallExpression (.Identifier calleeName) args =>
    if (ctxSetterNames ctx).contains calleeName then
      let st1 := directSetterUpdate ctx st e calleeName
      -- Functional update check applies to deferred and non-deferred calls
      if (match args.head? with
          | some a => isFunctionExpressionNode a
          | none => false) then
        { st1 with functionalUpdates := st1.functionalUpdates ++ [calleeName] }
      else st1
    else
      match mapGet ctx.localFunctionSetters calleeName with
      | some transitiveSetters =>
        if transitiveSetters.isEmpty then st
        else indirectCallUpdate ctx st e transitiveSetters
      | none => st
  | .CallExpression _ _ => st
  | .MemberExpression obj _ _ =>
    match obj with
    | .Identifier objName =>
      if (ctxStateNames ctx).contains objName then
        { st with reads := st.reads ++ [objName] }
      else st
    | _ => st
  | .Identifier name =>
    if !(ctxStateNames ctx).contains name then st
    else if !isReferencedIdentAt (e.stack.tail.head?) (e.path.getLast?.getD 0) then st
    else
      -- Redundant with the reference check (as in the source): skip the
      -- left side of an assignment.
      match e.stack.tail.head?, e.path.getLast?.getD 0 with
      | some (.AssignmentExpression _ _), 0 => st
      | _, _ => { st with reads := st.reads ++ [name] }
  | .AssignmentExpression left right =>
    match left with
    | .MemberExpression (.Identifier objName) (.Identifier propName) _ =>
      if propName == "current" && ctx.refVars.contains objName then
        let rec1 : RefMutation :=
          match right with
          | .Identifier rn =>
            { refName := objName, assignedValue := some rn,
              usesStateValue := (ctxStateNames ctx).contains rn, line := 0 }
          | _ =>
            { refName := objName, assignedValue := none,
              usesStateValue := nodeReferencesState (ctxStateNames ctx) right, line := 0 }
        { st with refMutations := st.refMutations ++ [rec1] }
      else st
    | _ => st
  | _ => st

/-- Build the interaction context (pass 1 plus named-reference resolution)
for a hook body. -/
def buildInteractionContext (hookBody : Node) (stateInfo : List (String × String))
    (refVars : List String) (localFunctionSetters : List (String × List String)) :
    InteractionContext × Pass1State :=
  let p1 := (descendantEntries hookBody).foldl pass1Step initPass1
  ({ stateInfo := stateInfo, refVars := refVars,
     localFunctionSetters := localFunctionSetters,
     asyncCallbackPaths := resolveNamedAsyncRefs p1,
     cleanupFunctionPaths := p1.cleanupFunctionPaths }, p1)

/-- `analyzeStateInteractions` from effect-analyzer.ts: two traversal
passes over the hook body followed by duplicate removal on five of the
name-list fields.  `hookBody` is the traversal root (the effect callback
node). -/
def analyzeStateInteractions (hookBody : Node) (stateInfo : List (String × String))
    (refVars : List String) (localFunctionSetters : List (String × List String)) :
    StateInteraction :=
  let cp := buildInteractionContext hookBody stateInfo refVars localFunctionSetters
  let start := { emptyInteraction with functionReferences := cp.2.functionReferences }
  let result := (descendantEntries hookBody).foldl (mainPassStep cp.1) start
  { result with
    reads := uniq result.reads,
    modifications := uniq result.modifications,
    conditionalModifications := uniq result.conditionalModifications,
    functionalUpdates := uniq result.functionalUpdates,
    deferredModifications := uniq result.deferredModifications }

/-! ### buildLocalFunctionSetterMap -/

/-- `findSettersCalledInFunction` from `buildLocalFunctionSetterMap`:
direct identifier-callee calls to known setters anywhere below the
function node. -/
def findSettersCalledInFunction (setterNames : List String) (funcNode : Node) :
    List String :=
  (descendantNodes funcNode).filterMap fun n =>
    match n with
    | .CallExpression (.Identifier c) _ =>
      if setterNames.contains c then some c else none
    | _ => none

/-- `findFunctionsCalledInFunction`: identifier-callee calls to other
known local functions below the function node. -/
def findFunctionsCalledInFunction (knownFunctions : List String) (funcNode : Node) :
    List String :=
  (descendantNodes funcNode).filterMap fun n =>
    match n with
    | .CallExpression (.Identifier c) _ =>
      if knownFunctions.contains c then some c else none
    | _ => none

/-- First pass of `buildLocalFunctionSetterMap`: collect every local
function definition (arrow/function-expression initializers and function
declarations). -/
def collectFunctionBodies (ast : Node) : List (String × Node) :=
  (descendantNodes ast).foldl
    (fun acc n =>
      match n with
      | .VariableDeclarator (.Identifier varName) (some init) =>
        if isFunctionExpressionNode init then mapSet acc varName init else acc
      | .FunctionDeclaration (some funcName) _ => mapSet acc funcName n
      | _ => acc)
    []

/-- One fixed-point pass of the transitive setter propagation: for every
function, union in the setters of each function it calls; report whether
any entry grew. -/
def propagationStep (functionCallingFunctions : List (String × List String))
    (m : List (String × List String)) :
    List (String × List String) × Bool :=
  functionCallingFunctions.foldl
    (fun acc entry =>
      let cur := (mapGet acc.1 entry.1).getD []
      let curSet := uniq cur
      let grown :=
        entry.2.foldl
          (fun s calledFunc =>
            let transitive := (mapGet acc.1 calledFunc).getD []
            transitive.foldl (fun s2 setter => setAdd s2 setter) s)
          curSet
      if grown.length > curSet.length then (mapSet acc.1 entry.1 grown, true)
      else acc)
    (m, false)

/-- `maxIterations` from `buildLocalFunctionSetterMap` (the safety limit
on fixed-point passes). -/
def maxIterations : Nat := 100

/-- The bounded fixed-point loop (`while (changed && iterations <
maxIterations)`), also returning the number of passes executed. -/
def propagationLoop (functionCallingFunctions : List (String × List String)) :
    Nat → List (String × List String) → Nat →
    List (String × List String) × Nat
  | 0, m, iterations => (m, iterations)
  | fuel + 1, m, iterations =>
    let step := propagationStep functionCallingFunctions m
    if step.2 then propagationLoop functionCallingFunctions fuel step.1 (iterations + 1)
    else (step.1, iterations + 1)

/-- `buildLocalFunctionSetterMap` from effect-analyzer.ts, instrumented to
also return how many fixed-point passes ran. -/
def buildLocalFunctionSetterMapWithCount (ast : Node)
    (stateInfo : List (String × String)) :
    List (String × List String) × Nat :=
  let setterNames := stateInfo.map (·.2)
  let functionBodies := collectFunctionBodies ast
  let functionsCallingSetters :=
    functionBodies.foldl
      (fun acc fb =>
        let settersCalled := findSettersCalledInFunction setterNames fb.2
        if settersCalled.isEmpty then acc else mapSet acc fb.1 settersCalled)
      []
  let knownFunctions := functionBodies.map (·.1)
  let functionCallingFunctions :=
    functionBodies.foldl
      (fun acc fb =>
        let calledFunctions := findFunctionsCalledInFunction knownFunctions fb.2
        if calledFunctions.isEmpty then acc else mapSet acc fb.1 calledFunctions)
      []
  propagationLoop functionCallingFunctions maxIterations functionsCallingSetters 0

/-- `buildLocalFunctionSetterMap`: function name → setters it transitively
calls. -/
def buildLocalFunctionSetterMap (ast : Node) (stateInfo : List (String × String)) :
    List (String × List String) :=
  (buildLocalFunctionSetterMapWithCount ast stateInfo).1

/-! ### detectUseEffectWithoutDeps -/

/-- The fields of a `HookAnalysis` finding inspected by the claims
(display-only string fields, file paths and source positions are not
modelled). -/
structure HookAnalysis where
  type : String
  errorCode : String
  category : String
  severity : String
  confidence : String
  hookType : String
  problematicDependency : String
  stateVariable : String
  setterFunction : String
  actualStateModifications : List String
  deriving DecidableEq, Repr

/-- `findSettersCalledInFunction` as defined inside
`detectUseEffectWithoutDeps`: besides identifier-callee calls to setters,
also records setters passed as call arguments (e.g. `.then(setData)`). -/
def findSettersCalledWithArgs (setterNames : List String) (funcNode : Node) :
    List String :=
  (descendantNodes funcNode).foldl
    (fun acc n =>
      match n with
      | .CallExpression callee args =>
        let acc1 :=
          match callee with
          | .Identifier c => if setterNames.contains c then acc ++ [c] else acc
          | _ => acc
        args.foldl
          (fun a arg =>
            match arg with
            | .Identifier an => if setterNames.contains an then a ++ [an] else a
            | _ => a)
          acc1
      | _ => acc)
    []

/-- Method name of an object-literal property or method, when its key is a
plain identifier or a string literal. -/
def objectMethodName : Node → Option String
  | .Identifier n => some n
  | .StringLiteral s => some s
  | _ => none

/-- First pass of `detectUseEffectWithoutDeps`: local functions (and
object-literal methods, keyed `obj.method`) that call state setters.
PascalCase function declarations (components) are skipped. -/
def detectFirstPass (ast : Node) (setterNames : List String) :
    List (String × List String) × List (String × List String) :=
  (descendantNodes ast).foldl
    (fun acc n =>
      match n with
      | .VariableDeclarator (.Identifier varName) (some init) =>
        if isFunctionExpressionNode init then
          let settersCalled := findSettersCalledWithArgs setterNames init
          if settersCalled.isEmpty then acc
          else (mapSet acc.1 varName settersCalled, acc.2)
        else
          match init with
          | .ObjectExpression props =>
            props.foldl
              (fun acc2 prop =>
                match prop with
                | .ObjectMethod key _ =>
                  match objectMethodName key with
                  | some methodName =>
                    let settersCalled := findSettersCalledWithArgs setterNames prop
                    if settersCalled.isEmpty then acc2
                    else (acc2.1, mapSet acc2.2 (varName ++ "." ++ methodName) settersCalled)
                  | none => acc2
                | .ObjectProperty key value =>
                  match objectMethodName key with
                  | some methodName =>
                    if isFunctionExpressionNode value then
                      let settersCalled := findSettersCalledWithArgs setterNames value
                      if settersCalled.isEmpty then acc2
                      else (acc2.1, mapSet acc2.2 (varName ++ "." ++ methodName) settersCalled)
                    else acc2
                  | none => acc2
                | _ => acc2)
              acc
          | _ => acc
      | .FunctionDeclaration (some funcName) _ =>
        if (match funcName.toList with
            | c :: _ => decide ('A' ≤ c) && decide (c ≤ 'Z')
            | [] => false) then acc
        else
          let settersCalled := findSettersCalledWithArgs setterNames n
          if settersCalled.isEmpty then acc
          else (mapSet acc.1 funcName settersCalled, acc.2)
      | _ => acc)
    ([], [])

/-- Scan of an effect callback body for direct and indirect setter calls:
returns `(setterCallsInCallback, functionCallsInCallback)`. -/
def scanCallback (setterNames : List String)
    (functionsCallingSetters objectMethodsCallingSetters : List (String × List String))
    (callback : Node) : List String × List String :=
  (descendantNodes callback).foldl
    (fun acc n =>
      match n with
      | .CallExpression (.Identifier calleeName) _ =>
        let acc1 :=
          if setterNames.contains calleeName then (acc.1 ++ [calleeName], acc.2)
          else acc
        match mapGet functionsCallingSetters calleeName with
        | some indirectSetters =>
          (acc1.1 ++ indirectSetters, acc1.2 ++ [calleeName])
        | none => acc1
      | .CallExpression (.MemberExpression (.Identifier objName) (.Identifier propName) _) _ =>
        let methodKey := objName ++ "." ++ propName
        match mapGet objectMethodsCallingSetters methodKey with
        | some indirectSetters =>
          (acc.1 ++ indirectSetters, acc.2 ++ [methodKey])
        | none => acc
      | _ => acc)
    ([], [])

/-- Per-call-site check of `detectUseEffectWithoutDeps`: a finding is
produced only for `useEffect`/`useLayoutEffect` calls with exactly one
argument, that argument an inline arrow/function expression whose body
reaches a setter directly or indirectly.  (The source's ignore-comment
check, which needs the raw file text, corresponds to analysing with no
`fileContent` and is absent.) -/
def checkEffectCall (stateInfo : List (String × String))
    (functionsCallingSetters objectMethodsCallingSetters : List (String × List String))
    (n : Node) : Option HookAnalysis :=
  match n with
  | .CallExpression (.Identifier hookName) args =>
    if hookName == "useEffect" || hookName == "useLayoutEffect" then
      if args.length != 1 then none
      else
        match args.head? with
        | some callback =>
          if !isFunctionExpressionNode callback then none
          else
            let setterNames := stateInfo.map (·.2)
            let scanned := scanCallback setterNames functionsCallingSetters
              objectMethodsCallingSetters callback
            match scanned.1.head? with
            | some firstSetter =>
              some
                { type := "confirmed-infinite-loop",
                  errorCode := "RLD-201",
                  category := "critical",
                  severity := "high",
                  confidence := if scanned.2.isEmpty then "high" else "medium",
                  hookType := hookName,
                  problematicDependency := "missing-deps",
                  stateVariable := (setterToState stateInfo firstSetter).getD firstSetter,
                  setterFunction := firstSetter,
                  actualStateModifications := scanned.1 }
            | none => none
        | none => none
    else none
  | _ => none

/-- `detectUseEffectWithoutDeps` from effect-analyzer.ts. -/
def detectUseEffectWithoutDeps (ast : Node) (stateInfo : List (String × String)) :
    List HookAnalysis :=
  let setterNames := stateInfo.map (·.2)
  let fp := detectFirstPass ast setterNames
  (descendantNodes ast).filterMap (checkEffectCall stateInfo fp.1 fp.2)

/-! ## orchestrator.ts -/

/-- `STABLE_REACT_HOOKS` from orchestrator.ts. -/
def STABLE_REACT_HOOKS : List String := ["useRef", "useId"]

/-- `STABLE_FUNCTION_CALLS` from orchestrator.ts. -/
def STABLE_FUNCTION_CALLS : List String :=
  ["require", "String", "Number", "Boolean", "parseInt", "parseFloat"]

/-- `PRIMITIVE_RETURNING_METHODS` from orchestrator.ts. -/
def PRIMITIVE_RETURNING_METHODS : List String :=
  ["join", "toString", "toLocaleString", "valueOf", "charAt", "charCodeAt",
   "codePointAt", "substring", "substr", "slice", "trim", "trimStart",
   "trimEnd", "toLowerCase", "toUpperCase", "toLocaleLowerCase",
   "toLocaleUpperCase", "normalize", "padStart", "padEnd", "repeat",
   "replace", "replaceAll", "toFixed", "toExponential", "toPrecision",
   "indexOf", "lastIndexOf", "length", "includes", "startsWith", "endsWith",
   "every", "some", "get", "has"]

/-- `PRIMITIVE_RETURNING_STATIC_METHODS` from orchestrator.ts. -/
def primitiveStaticMethods : String → Option (List String) :=
  mapGet
    [("Math",
      ["abs", "acos", "acosh", "asin", "asinh", "atan", "atan2", "atanh",
       "cbrt", "ceil", "clz32", "cos", "cosh", "exp", "expm1", "floor",
       "fround", "hypot", "imul", "log", "log10", "log1p", "log2", "max",
       "min", "pow", "random", "round", "sign", "sin", "sinh", "sqrt",
       "tan", "tanh", "trunc"]),
     ("Number",
      ["isFinite", "isInteger", "isNaN", "isSafeInteger", "parseFloat", "parseInt"]),
     ("String", ["fromCharCode", "fromCodePoint"]),
     ("Object", ["is", "hasOwn"]),
     ("Array", ["isArray"]),
     ("Date", ["now", "parse", "UTC"]),
     ("JSON", ["stringify"])]

/-- `StabilityCheckContext` from orchestrator.ts. -/
structure StabilityCheckContext where
  filePath : Option String
  line : Option Nat

/-- `StabilityConfig` from orchestrator.ts: explicit stable/unstable hook
lists plus regex patterns (a pattern is modelled as its match
predicate).  The `customFunctions` field is consumed only by helpers that
`isStableFunctionCall` does not call and is omitted. -/
structure StabilityConfig where
  stableHooks : Option (List String)
  unstableHooks : Option (List String)
  stableHookPatterns : Option (List (String → Bool))
  unstableHookPatterns : Option (List (String → Bool))

/-- `isConfiguredStableHook` from orchestrator.ts. -/
def isConfiguredStableHook (hookName : String) (config : StabilityConfig) : Bool :=
  (match config.stableHooks with
   | some l => l.contains hookName
   | none => false) ||
  (match config.stableHookPatterns with
   | some ps => ps.any fun p => p hookName
   | none => false)

/-- `isConfiguredUnstableHook` from orchestrator.ts. -/
def isConfiguredUnstableHook (hookName : String) (config : StabilityConfig) : Bool :=
  (match config.unstableHooks with
   | some l => l.contains hookName
   | none => false) ||
  (match config.unstableHookPatterns with
   | some ps => ps.any fun p => p hookName
   | none => false)

/-- The type-checking collaborator, abstracted to the verdict it returns
per function name (`checkFunctionReturnStability` feeds it the file path
and line, which do not vary within one call site). -/
abbrev TypeChecker := String → Option Bool

/-- `checkFunctionReturnStability` from orchestrator.ts: `none` when no
checker is available or it cannot determine stability. -/
def checkFunctionReturnStability (typeChecker : Option TypeChecker)
    (functionName : String) : Option Bool :=
  match typeChecker with
  | none => none
  | some tc => tc functionName

/-- Steps 5 and later of `isStableFunctionCall`: the `use*`-prefix
heuristic, primitive-returning method and static-method allowlists, the
`getState` store pattern, and the default-unstable fallback. -/
def isStableFallback (callee : Node) : Bool :=
  if (match callee with
      | .Identifier n => n.startsWith "use"
      | _ => false) then true
  else
    match callee with
    | .MemberExpression obj (.Identifier methodName) _ =>
      if PRIMITIVE_RETURNING_METHODS.contains methodName then true
      else if (match obj with
               | .Identifier objectName =>
                 match primitiveStaticMethods objectName with
                 | some ms => ms.contains methodName
                 | none => false
               | _ => false) then true
      else methodName == "getState"
    | _ => false

/-- Step 3 of `isStableFunctionCall`: the explicit configuration's
verdict for an identifier callee (`none` when the configuration does not
resolve the name, when the callee is not an identifier, or when no
configuration was given). -/
def configVerdictFor (callee : Node) (config : Option StabilityConfig) : Option Bool :=
  match callee, config with
  | .Identifier n, some cfg =>
    if isConfiguredUnstableHook n cfg then some false
    else if isConfiguredStableHook n cfg then some true
    else none
  | _, _ => none

/-- The function name `isStableFunctionCall` submits to the type checker:
the identifier callee's name, or a member callee's property name. -/
def functionNameFor : Node → Option String
  | .Identifier n => some n
  | .MemberExpression _ (.Identifier pn) _ => some pn
  | _ => none

/-- JavaScript truthiness of `context?.filePath && context?.line` (empty
string and 0 are falsy). -/
def contextUsableFor : Option StabilityCheckContext → Bool
  | some c =>
    (match c.filePath with
     | some fp => fp != ""
     | none => false) &&
    (match c.line with
     | some l => l != 0
     | none => false)
  | none => false

/-- Step 4 of `isStableFunctionCall`: the type checker's verdict, gated on
strict mode (a checker being available) and a usable context. -/
def typeVerdictFor (callee : Node) (context : Option StabilityCheckContext)
    (typeChecker : Option TypeChecker) : Option Bool :=
  if typeChecker.isSome && contextUsableFor context then
    match functionNameFor callee with
    | some fn => checkFunctionReturnStability typeChecker fn
    | none => none
  else none

/-- `isStableFunctionCall` from orchestrator.ts: classifier precedence is
built-in stable hooks, then known stable calls, then explicit
configuration (lists and patterns), then the type checker for names the
configuration leaves unresolved, then the heuristics of
`isStableFallback`. -/
def isStableFunctionCall (init : Node) (context : Option StabilityCheckContext)
    (typeChecker : Option TypeChecker) (config : Option StabilityConfig) : Bool :=
  match init with
  | .CallExpression callee _ =>
    if (match callee with
        | .Identifier n => STABLE_REACT_HOOKS.contains n
        | _ => false) then true
    else if (match callee with
        | .Identifier n => STABLE_FUNCTION_CALLS.contains n
        | _ => false) then true
    else
      match configVerdictFor callee config with
      | some b => b
      | none =>
        match typeVerdictFor callee context typeChecker with
        | some b => b
        | none => isStableFallback callee
  | _ => false

/-- The per-entry data of an `UnstableVariable` consulted by the final
pass of `extractUnstableVariables`. -/
structure UnstableVarEntry where
  name : String
  componentName : Option String
  deriving DecidableEq, Repr

/-- The final pass of `extractUnstableVariables` (orchestrator.ts): delete
every accumulated unstable entry whose variable was independently proven
memoized in its component's scope, or proven a state, ref, or module-level
variable.  The traversal that accumulates `unstableVars`, `memoizedVars`,
`stateVars`, `refVars` and `moduleLevelVars` is quantified over here, so
the theorems cover the map returned for every input AST.

`unstableEntryProvenStable` is the deletion condition applied to each
accumulated entry: proven memoized in its component's scope, or a state,
ref, or module-level variable. -/
def unstableEntryProvenStable (memoizedVars : List (String × List String))
    (stateVars refVars moduleLevelVars : List String)
    (v : UnstableVarEntry) : Bool :=
  (match v.componentName with
   | some componentName =>
     match mapGet memoizedVars componentName with
     | some s => s.contains v.name
     | none => false
   | none => false) ||
  stateVars.contains v.name ||
  refVars.contains v.name ||
  moduleLevelVars.contains v.name

/-- The `keysToDelete` accumulation of the final pass. -/
def unstableKeysToDelete (unstableVars : List (String × UnstableVarEntry))
    (memoizedVars : List (String × List String))
    (stateVars refVars moduleLevelVars : List String) : List String :=
  unstableVars.foldl
    (fun acc kv =>
      if unstableEntryProvenStable memoizedVars stateVars refVars moduleLevelVars kv.2 then
        acc ++ [kv.1]
      else acc)
    []

def extractUnstableVariablesFinalPass
    (unstableVars : List (String × UnstableVarEntry))
    (memoizedVars : List (String × List String))
    (stateVars refVars moduleLevelVars : List String) :
    List (String × UnstableVarEntry) :=
  let keysToDelete :=
    unstableKeysToDelete unstableVars memoizedVars stateVars refVars moduleLevelVars
  unstableVars.filter fun kv => !keysToDelete.contains kv.1

/-! ## utils.ts: confidence adjustment -/

/-- `ConfidenceLevel` from utils.ts. -/
inductive ConfidenceLevel where
  | low
  | medium
  | high
  deriving DecidableEq, Repr

/-- Numeric ordering of confidence levels: low < medium < high. -/
def ConfidenceLevel.toNat : ConfidenceLevel → Nat
  | .low => 0
  | .medium => 1
  | .high => 2

/-- The context record `_adjustConfidence` receives. -/
structure ConfidenceContext where
  usedTypeInference : Bool
  crossFileChainDepth : Option Nat
  isConditional : Bool
  isStrictMode : Bool

/-- `_adjustConfidence` from utils.ts (the leading underscore of the
source name is dropped): downgrade high confidence to medium when type
inference ran without strict mode, when a cross-file chain is deeper than
2, or when the modification is conditional. -/
def adjustConfidence (baseConfidence : ConfidenceLevel)
    (context : ConfidenceContext) : ConfidenceLevel :=
  let confidence := baseConfidence
  let confidence :=
    if context.usedTypeInference && !context.isStrictMode &&
        confidence == ConfidenceLevel.high then
      ConfidenceLevel.medium
    else confidence
  let confidence :=
    if (match context.crossFileChainDepth with
        | some d => decide (2 < d)
        | none => false) && confidence == ConfidenceLevel.high then
      ConfidenceLevel.medium
    else confidence
  let confidence :=
    if context.isConditional && confidence == ConfidenceLevel.high then
      ConfidenceLevel.medium
    else confidence
  confidence

/-! ## Condition-shape predicates

Inductive characterisations of the `if`-condition shapes the guard
analyzer recognizes, used to state conservatism: a condition outside these
shapes is never classified safe. -/

/-- Condition shapes the effect-guard variant (`analyzeCondition`) can
recognize: negation of the state identifier, the bare state identifier, a
`!==`/`!=` comparison with the state identifier or a property of it on one
side, or a logical AND with a recognized side. -/
inductive RecognizedEffectCond (sv : String) : Node → Prop where
  | negState : RecognizedEffectCond sv (.UnaryExpression "!" (.Identifier sv))
  | bareState : RecognizedEffectCond sv (.Identifier sv)
  | neqState (op : String) (left right : Node) :
      (op = "!==" ∨ op = "!=") →
      (left = .Identifier sv ∨ right = .Identifier sv) →
      RecognizedEffectCond sv (.BinaryExpression op left right)
  | neqStateMember (op : String) (left right : Node) :
      (op = "!==" ∨ op = "!=") →
      (isMemberOfState sv left = true ∨ isMemberOfState sv right = true) →
      RecognizedEffectCond sv (.BinaryExpression op left right)
  | andLeft (l r : Node) : RecognizedEffectCond sv l →
      RecognizedEffectCond sv (.LogicalExpression "&&" l r)
  | andRight (l r : Node) : RecognizedEffectCond sv r →
      RecognizedEffectCond sv (.LogicalExpression "&&" l r)

/-- Condition shapes the render-phase variant
(`analyzeRenderGuardCondition`) can recognize. -/
inductive RecognizedRenderCond (sv : String) : Node → Prop where
  | neqState (op : String) (left right : Node) :
      (op = "!==" ∨ op = "!=") →
      (left = .Identifier sv ∨ right = .Identifier sv) →
      RecognizedRenderCond sv (.BinaryExpression op left right)
  | neqComparands (op : String) (left right : Node) :
      (op = "!==" ∨ op = "!=") →
      isIdentOrMember left = true → isIdentOrMember right = true →
      RecognizedRenderCond sv (.BinaryExpression op left right)
  | negState : RecognizedRenderCond sv (.UnaryExpression "!" (.Identifier sv))
  | bareState : RecognizedRenderCond sv (.Identifier sv)
  | andLeft (l r : Node) : RecognizedRenderCond sv l →
      RecognizedRenderCond sv (.LogicalExpression "&&" l r)
  | andRight (l r : Node) : RecognizedRenderCond sv r →
      RecognizedRenderCond sv (.LogicalExpression "&&" l r)

/-- The two condition/argument combinations under which the render-phase
variant returns the safe `derived-state` classification for a setter call
site: a `!==`/`!=` comparison with the state on one side and the setter
argument structurally equivalent to the other side, or such a comparison
between two identifier/member operands with a constant reset-value
argument; either possibly nested inside `&&`. -/
inductive DerivedStateCond (sv : String) (call : Node) : Node → Prop where
  | derivedEquiv (op : String) (left right arg : Node) :
      (op = "!==" ∨ op = "!=") →
      (callArguments call).head? = some arg →
      ((left = .Identifier sv ∧ nodesAreEquivalent arg right = true) ∨
       (isStateIdent sv left = false ∧ right = .Identifier sv ∧
        nodesAreEquivalent arg left = true)) →
      DerivedStateCond sv call (.BinaryExpression op left right)
  | derivedReset (op : String) (left right : Node) :
      (op = "!==" ∨ op = "!=") →
      isIdentOrMember left = true → isIdentOrMember right = true →
      isResetArg (callArguments call).head? = true →
      DerivedStateCond sv call (.BinaryExpression op left right)
  | andLeft (l r : Node) : DerivedStateCond sv call l →
      DerivedStateCond sv call (.LogicalExpression "&&" l r)
  | andRight (l r : Node) : DerivedStateCond sv call r →
      DerivedStateCond sv call (.LogicalExpression "&&" l r)

/-! ## Concrete example inputs used by witnesses and counterexamples -/

/-- Effect body `() => { setTimeout(() => { setX(1); }, 1000); }`. -/
def exDeferredBody : Node :=
  .ArrowFunctionExpression (.BlockStatement
    [.ExpressionStatement (.CallExpression (.Identifier "setTimeout")
      [.ArrowFunctionExpression (.BlockStatement
          [.ExpressionStatement (.CallExpression (.Identifier "setX")
            [.NumericLiteral 1])]),
       .NumericLiteral 1000])])

/-- Effect body `() => { return () => { setX(1); setX(2); }; }`: the
cleanup closure calls the same setter twice. -/
def exCleanupBody : Node :=
  .ArrowFunctionExpression (.BlockStatement
    [.ReturnStatement (some (.ArrowFunctionExpression (.BlockStatement
      [.ExpressionStatement (.CallExpression (.Identifier "setX") [.NumericLiteral 1]),
       .ExpressionStatement (.CallExpression (.Identifier "setX") [.NumericLiteral 2])])))])

/-- Effect body `() => { if (!state) setState(); }`: a direct setter call
with zero arguments inside a falsy guard on its own state variable. -/
def exFalsyGuardDirectBody : Node :=
  .ArrowFunctionExpression (.BlockStatement
    [.IfStatement (.UnaryExpression "!" (.Identifier "state"))
      (.ExpressionStatement (.CallExpression (.Identifier "setState") []))
      none])

/-- Effect body `() => { if (!token) { fetchAndSetToken(); } }`: a
zero-argument call to a local function that transitively reaches
`setToken`, inside a falsy guard on `token`. -/
def exFalsyGuardIndirectBody : Node :=
  .ArrowFunctionExpression (.BlockStatement
    [.IfStatement (.UnaryExpression "!" (.Identifier "token"))
      (.BlockStatement
        [.ExpressionStatement (.CallExpression (.Identifier "fetchAndSetToken") [])])
      none])

/-- Program `const fnA = () => { fnB(); }; function fnB() { fnA(); setS(1); }`:
a mutually recursive local call graph in which both functions eventually
reach the setter `setS`. -/
def exMutualAst : Node :=
  .BlockStatement
    [.VariableDeclaration
      [.VariableDeclarator (.Identifier "fnA")
        (some (.ArrowFunctionExpression (.BlockStatement
          [.ExpressionStatement (.CallExpression (.Identifier "fnB") [])])))],
     .FunctionDeclaration (some "fnB") (.BlockStatement
       [.ExpressionStatement (.CallExpression (.Identifier "fnA") []),
        .ExpressionStatement (.CallExpression (.Identifier "setS") [.NumericLiteral 1])])]

/-- Render-phase setter call `setState(null)` and its ancestor stack for
the statement `if (a !== b) setState(null);` — the comparison involves
neither the state variable nor the setter argument. -/
def exResetCall : Node :=
  .CallExpression (.Identifier "setState") [.NullLiteral]

/-- The condition `a !== b` of the reset-guard example. -/
def exResetCond : Node :=
  .BinaryExpression "!==" (.Identifier "a") (.Identifier "b")

/-- Nearest-first ancestor stack of `exResetCall` inside
`if (a !== b) setState(null);`. -/
def exResetStack : List Node :=
  [exResetCall,
   .ExpressionStatement exResetCall,
   .IfStatement exResetCond (.ExpressionStatement exResetCall) none]

/-- Render-phase setter call `setPrev(prop)` for the classic derived-state
statement `if (prop !== prev) setPrev(prop);`. -/
def exDerivedCall : Node :=
  .CallExpression (.Identifier "setPrev") [.Identifier "prop"]

/-- Nearest-first ancestor stack of `exDerivedCall` inside
`if (prop !== prev) setPrev(prop);`. -/
def exDerivedStack : List Node :=
  [exDerivedCall,
   .ExpressionStatement exDerivedCall,
   .IfStatement (.BinaryExpression "!==" (.Identifier "prop") (.Identifier "prev"))
     (.ExpressionStatement exDerivedCall) none]

/-- Render-phase setter call `setState(1)` under the unrecognized guard
`if (check()) setState(1);`. -/
def exUnknownGuardCall : Node :=
  .CallExpression (.Identifier "setState") [.NumericLiteral 1]

/-- Nearest-first ancestor stack of `exUnknownGuardCall` inside
`if (check()) setState(1);` (a call-expression condition is not a
recognized guard shape). -/
def exUnknownGuardStack : List Node :=
  [exUnknownGuardCall,
   .ExpressionStatement exUnknownGuardCall,
   .IfStatement (.CallExpression (.Identifier "check") [])
     (.ExpressionStatement exUnknownGuardCall) none]

/-! # Theorems -/

/-! ## Shared helper lemmas -/

theorem uniq_go_nodup (xs seen : List String) :
    (uniq.go xs seen).Nodup ∧ ∀ y ∈ uniq.go xs seen, y ∉ seen := by
  induction xs generalizing seen with
  | nil => simp [uniq.go]
  | cons x rest ih =>
    by_cases hx : x ∈ seen
    · simpa [uniq.go, hx] using ih seen
    · have h2 := ih (x :: seen)
      refine ⟨?_, ?_⟩
      · simp only [uniq.go, hx, if_false, List.nodup_cons]
        exact ⟨fun hmem => (h2.2 x hmem) (List.mem_cons_self x seen), h2.1⟩
      · intro y hy
        simp only [uniq.go, hx, if_false, List.mem_cons] at hy
        rcases hy with rfl | hy
        · exact hx
        · intro hseen
          exact (h2.2 y hy) (List.mem_cons_of_mem x hseen)

theorem uniq_nodup (xs : List String) : (uniq xs).Nodup :=
  (uniq_go_nodup xs []).1

/-! ## C8: confidence monotonicity -/

/-- C8: For every base confidence level and every downgrade context (type
inference without strict mode, cross-file chain depth greater than 2,
conditional modification), `_adjustConfidence` returns a confidence less
than or equal to the base under the ordering low < medium < high; no rule
ever increases confidence. -/
theorem c8_adjustConfidence_monotone (base : ConfidenceLevel)
    (context : ConfidenceContext) :
    (adjustConfidence base context).toNat ≤ base.toNat := by
  cases base <;>
    simp only [adjustConfidence] <;>
    split <;> split <;> split <;>
    simp_all [ConfidenceLevel.toNat]

/-! ## C6: no proven-stable entry survives the final pass -/

theorem keysToDelete_acc_mem (mv : List (String × List String))
    (sv rv mlv : List String) :
    ∀ (l : List (String × UnstableVarEntry)) (acc : List String) (x : String),
      x ∈ acc →
      x ∈ l.foldl
        (fun acc kv =>
          if unstableEntryProvenStable mv sv rv mlv kv.2 then acc ++ [kv.1] else acc)
        acc := by
  intro l
  induction l with
  | nil => intro acc x hx; simpa using hx
  | cons kv rest ih =>
    intro acc x hx
    simp only [List.foldl_cons]
    split
    · exact ih (acc ++ [kv.1]) x (List.mem_append_left _ hx)
    · exact ih acc x hx

theorem keysToDelete_mem (mv : List (String × List String))
    (sv rv mlv : List String) :
    ∀ (l : List (String × UnstableVarEntry)) (acc : List String)
      (kv : String × UnstableVarEntry),
      kv ∈ l → unstableEntryProvenStable mv sv rv mlv kv.2 = true →
      kv.1 ∈ l.foldl
        (fun acc kv =>
          if unstableEntryProvenStable mv sv rv mlv kv.2 then acc ++ [kv.1] else acc)
        acc := by
  intro l
  induction l with
  | nil => intro acc kv hkv; simp at hkv
  | cons hd rest ih =>
    intro acc kv hkv hbad
    simp only [List.mem_cons] at hkv
    rcases hkv with rfl | hkv
    · simp only [List.foldl_cons, hbad, if_true]
      exact keysToDelete_acc_mem mv sv rv mlv rest (acc ++ [kv.1]) kv.1
        (List.mem_append_right _ (List.mem_singleton.mpr rfl))
    · simp only [List.foldl_cons]
      split
      · exact ih (acc ++ [hd.1]) kv hkv hbad
      · exact ih acc kv hkv hbad

/-- C6: Every entry remaining in the map produced by
`extractUnstableVariables` names a variable not proven memoized in its
component's scope and not proven a state, ref, or module-level variable:
the final post-pass deletes every entry whose deletion condition holds.
(The accumulated maps are quantified over, covering every input AST.) -/
theorem c6_extractUnstable_final_no_proven_stable
    (unstableVars : List (String × UnstableVarEntry))
    (memoizedVars : List (String × List String))
    (stateVars refVars moduleLevelVars : List String) :
    ∀ kv ∈ extractUnstableVariablesFinalPass unstableVars memoizedVars
        stateVars refVars moduleLevelVars,
      (∀ c ms, kv.2.componentName = some c → mapGet memoizedVars c = some ms →
        ms.contains kv.2.name = false) ∧
      stateVars.contains kv.2.name = false ∧
      refVars.contains kv.2.name = false ∧
      moduleLevelVars.contains kv.2.name = false := by
  intro kv hkv
  simp only [extractUnstableVariablesFinalPass, List.mem_filter] at hkv
  obtain ⟨hmem, hkeep⟩ := hkv
  have hnotbad :
      unstableEntryProvenStable memoizedVars stateVars refVars moduleLevelVars kv.2
        = false := by
    by_contra hc
    have hbad :
        unstableEntryProvenStable memoizedVars stateVars refVars moduleLevelVars kv.2
          = true := by
      revert hc
      cases unstableEntryProvenStable memoizedVars stateVars refVars moduleLevelVars kv.2 <;>
        simp
    have hdel := keysToDelete_mem memoizedVars stateVars refVars moduleLevelVars
      unstableVars [] kv hmem hbad
    rw [Bool.not_eq_true'] at hkeep
    rw [← unstableKeysToDelete] at hdel
    simp at hkeep
    exact hkeep hdel
  simp only [unstableEntryProvenStable, Bool.or_eq_false_iff] at hnotbad
  obtain ⟨⟨⟨hmemo, hstate⟩, href⟩, hmodule⟩ := hnotbad
  refine ⟨?_, hstate, href, hmodule⟩
  intro c ms hc hms
  rw [hc] at hmemo
  simp only [hms] at hmemo
  exact hmemo

/-- Witness for C6 at a concrete input: in a two-entry accumulated map in
which the entry for `memoed` is proven memoized (and deleted), the
surviving entry `style` is not memoized in its component's scope and is
not a state, ref, or module-level variable. -/
theorem c6_witness :
    List.contains ["memoed"] "style" = false ∧
    List.contains ["count"] "style" = false ∧
    List.contains ["boxRef"] "style" = false ∧
    List.contains ["globalCfg"] "style" = false := by
  have h := c6_extractUnstable_final_no_proven_stable
    [("Comp:style", { name := "style", componentName := some "Comp" }),
     ("Comp:memoed", { name := "memoed", componentName := some "Comp" })]
    [("Comp", ["memoed"])] ["count"] ["boxRef"] ["globalCfg"]
    ("Comp:style", { name := "style", componentName := some "Comp" })
    (by decide)
  exact ⟨h.1 "Comp" ["memoed"] rfl rfl, h.2.1, h.2.2.1, h.2.2.2⟩

/-! ## C7: configuration precedence in isStableFunctionCall -/

/-- C7: For an identifier callee not matched by the built-in classifiers,
the explicit configuration is consulted before any type information: a
name configured unstable yields `false` and a name configured stable
yields `true`, regardless of the type-checker verdict; the type checker's
verdict decides only names the configuration does not resolve. -/
theorem c7_isStableFunctionCall_config_precedence
    (n : String) (args : List Node) (cfg : StabilityConfig)
    (h1 : STABLE_REACT_HOOKS.contains n = false)
    (h2 : STABLE_FUNCTION_CALLS.contains n = false) :
    (isConfiguredUnstableHook n cfg = true →
      ∀ (context : Option StabilityCheckContext) (tc : Option TypeChecker),
        isStableFunctionCall (.CallExpression (.Identifier n) args) context tc
          (some cfg) = false) ∧
    (isConfiguredUnstableHook n cfg = false → isConfiguredStableHook n cfg = true →
      ∀ (context : Option StabilityCheckContext) (tc : Option TypeChecker),
        isStableFunctionCall (.CallExpression (.Identifier n) args) context tc
          (some cfg) = true) ∧
    (isConfiguredUnstableHook n cfg = false → isConfiguredStableHook n cfg = false →
      ∀ (fp : String) (ln : Nat) (tc : TypeChecker) (b : Bool),
        fp ≠ "" → ln ≠ 0 → tc n = some b →
        isStableFunctionCall (.CallExpression (.Identifier n) args)
          (some { filePath := some fp, line := some ln }) (some tc)
          (some cfg) = b) := by
  have h1m : n ∉ STABLE_REACT_HOOKS := by simpa using h1
  have h2m : n ∉ STABLE_FUNCTION_CALLS := by simpa using h2
  refine ⟨?_, ?_, ?_⟩
  · intro hu context tc
    simp [isStableFunctionCall, h1m, h2m, configVerdictFor, hu]
  · intro hu hs context tc
    simp [isStableFunctionCall, h1m, h2m, configVerdictFor, hu, hs]
  · intro hu hs fp ln tc b hfp hln htc
    simp [isStableFunctionCall, h1m, h2m, configVerdictFor, hu, hs,
      typeVerdictFor, contextUsableFor, functionNameFor,
      checkFunctionReturnStability, htc, bne_iff_ne, hfp, hln]

/-- Witness for C7 at concrete inputs: with a config naming `badHook`
unstable and `goodHook` stable, the configured verdicts override opposing
type-checker verdicts, and an unresolved name takes the type-checker
verdict. -/
theorem c7_witness :
    (isStableFunctionCall (.CallExpression (.Identifier "badHook") [])
      none (some fun _ => some true)
      (some { stableHooks := some ["goodHook"], unstableHooks := some ["badHook"],
              stableHookPatterns := none, unstableHookPatterns := none }) = false) ∧
    (isStableFunctionCall (.CallExpression (.Identifier "goodHook") [])
      none (some fun _ => some false)
      (some { stableHooks := some ["goodHook"], unstableHooks := some ["badHook"],
              stableHookPatterns := none, unstableHookPatterns := none }) = true) ∧
    (isStableFunctionCall (.CallExpression (.Identifier "plainFn") [])
      (some { filePath := some "a.ts", line := some 3 })
      (some fun _ => some true)
      (some { stableHooks := some ["goodHook"], unstableHooks := some ["badHook"],
              stableHookPatterns := none, unstableHookPatterns := none }) = true) := by
  refine ⟨?_, ?_, ?_⟩
  · exact (c7_isStableFunctionCall_config_precedence "badHook" []
      { stableHooks := some ["goodHook"], unstableHooks := some ["badHook"],
        stableHookPatterns := none, unstableHookPatterns := none }
      (by decide) (by decide)).1 (by simp [isConfiguredUnstableHook]) none _
  · exact (c7_isStableFunctionCall_config_precedence "goodHook" []
      { stableHooks := some ["goodHook"], unstableHooks := some ["badHook"],
        stableHookPatterns := none, unstableHookPatterns := none }
      (by decide) (by decide)).2.1 (by simp [isConfiguredUnstableHook])
      (by simp [isConfiguredStableHook]) none _
  · exact (c7_isStableFunctionCall_config_precedence "plainFn" []
      { stableHooks := some ["goodHook"], unstableHooks := some ["badHook"],
        stableHookPatterns := none, unstableHookPatterns := none }
      (by decide) (by decide)).2.2 (by simp [isConfiguredUnstableHook])
      (by simp [isConfiguredStableHook]) "a.ts" 3 (fun _ => some true) true
      (by decide) (by decide) rfl

/-! ## C9: duplicate-freedom of the interaction record -/

/-- C9 counterexample: the claim asserts all six name-list fields of the
returned `StateInteraction` are duplicate-free, but `cleanupModifications`
is not passed through the final duplicate-removal step: for the effect
body `() => { return () => { setX(1); setX(2); }; }` the cleanup list
contains `setX` twice. -/
theorem c9_counterexample :
    ¬ List.Nodup
        (analyzeStateInteractions exCleanupBody [("x", "setX")] [] []).cleanupModifications := by
  have h : (analyzeStateInteractions exCleanupBody [("x", "setX")] [] []).cleanupModifications
      = ["setX", "setX"] := by rfl
  rw [h]
  decide

/-- C9 (amended): for every input effect body, the `reads`,
`modifications`, `conditionalModifications`, `functionalUpdates` and
`deferredModifications` fields of the returned `StateInteraction` are
duplicate-free (the final pass removes duplicates from exactly these
five); `cleanupModifications` is exempt from that pass and may contain
duplicates. -/
theorem c9_interaction_fields_nodup (hookBody : Node)
    (stateInfo : List (String × String)) (refVars : List String)
    (localFunctionSetters : List (String × List String)) :
    (analyzeStateInteractions hookBody stateInfo refVars localFunctionSetters).reads.Nodup ∧
    (analyzeStateInteractions hookBody stateInfo refVars localFunctionSetters).modifications.Nodup ∧
    (analyzeStateInteractions hookBody stateInfo refVars localFunctionSetters).conditionalModifications.Nodup ∧
    (analyzeStateInteractions hookBody stateInfo refVars localFunctionSetters).functionalUpdates.Nodup ∧
    (analyzeStateInteractions hookBody stateInfo refVars localFunctionSetters).deferredModifications.Nodup :=
  ⟨uniq_nodup _, uniq_nodup _, uniq_nodup _, uniq_nodup _, uniq_nodup _⟩

/-! ## C4: bounded fixed-point propagation over the local call graph -/

theorem propagationLoop_count_le (fcf : List (String × List String)) :
    ∀ (fuel : Nat) (m : List (String × List String)) (iterations : Nat),
      (propagationLoop fcf fuel m iterations).2 ≤ iterations + fuel := by
  intro fuel
  induction fuel with
  | zero => intro m iterations; simp [propagationLoop]
  | succ k ih =>
    intro m iterations
    simp only [propagationLoop]
    split
    · exact le_trans (ih _ (iterations + 1)) (by omega)
    · simp

/-- C4: `buildLocalFunctionSetterMap` terminates on every local call graph
because the fixed-point propagation executes at most `maxIterations`
passes; and on the mutually recursive graph `fnA` calls `fnB`, `fnB` calls
`fnA`, with `fnB` reaching the setter `setS`, the resulting map assigns
`setS` to both functions. -/
theorem c4_fixed_point_bounded_and_transitive :
    (∀ (ast : Node) (stateInfo : List (String × String)),
      (buildLocalFunctionSetterMapWithCount ast stateInfo).2 ≤ maxIterations) ∧
    mapGet (buildLocalFunctionSetterMap exMutualAst [("s", "setS")]) "fnA" =
      some ["setS"] ∧
    mapGet (buildLocalFunctionSetterMap exMutualAst [("s", "setS")]) "fnB" =
      some ["setS"] := by
  refine ⟨?_, ?_, ?_⟩
  · intro ast stateInfo
    exact le_trans (propagationLoop_count_le _ maxIterations _ 0) (by omega)
  · decide
  · decide

/-! ## C10: the missing-deps detector requires an inline callback -/

/-- C10: `detectUseEffectWithoutDeps` is the per-call-site check
`checkEffectCall` mapped over all nodes, and that check produces a finding
only for calls with exactly one argument whose sole argument is an inline
arrow/function expression: a call with a different argument count, or
whose sole argument is not a function expression (e.g. a named function
identifier), is never reported — whatever its body or the local call graph
reaches. -/
theorem c10_detect_requires_inline_callback :
    (∀ (ast : Node) (stateInfo : List (String × String)),
      detectUseEffectWithoutDeps ast stateInfo =
        (descendantNodes ast).filterMap
          (checkEffectCall stateInfo
            (detectFirstPass ast (stateInfo.map (·.2))).1
            (detectFirstPass ast (stateInfo.map (·.2))).2)) ∧
    (∀ (stateInfo : List (String × String))
        (fcs oms : List (String × List String)) (hookName : String)
        (args : List Node),
      args.length ≠ 1 →
      checkEffectCall stateInfo fcs oms
        (.CallExpression (.Identifier hookName) args) = none) ∧
    (∀ (stateInfo : List (String × String))
        (fcs oms : List (String × List String)) (hookName : String) (f : Node),
      isFunctionExpressionNode f = false →
      checkEffectCall stateInfo fcs oms
        (.CallExpression (.Identifier hookName) [f]) = none) := by
  refine ⟨?_, ?_, ?_⟩
  · intro ast stateInfo; rfl
  · intro stateInfo fcs oms hookName args hlen
    simp [checkEffectCall, hlen]
  · intro stateInfo fcs oms hookName f hf
    simp [checkEffectCall, hf]

/-- Witness for C10 at concrete inputs: `useEffect` invoked with an inline
setter-calling callback plus a second argument, and `useEffect` invoked
with a named local function (whose definition reaches `setX`), both
produce no finding. -/
theorem c10_witness :
    checkEffectCall [("x", "setX")] [] []
      (.CallExpression (.Identifier "useEffect")
        [.ArrowFunctionExpression (.BlockStatement
          [.ExpressionStatement (.CallExpression (.Identifier "setX") [.NumericLiteral 1])]),
         .ArrayExpression []]) = none ∧
    checkEffectCall [("x", "setX")] [("doWork", ["setX"])] []
      (.CallExpression (.Identifier "useEffect") [.Identifier "doWork"]) = none := by
  constructor
  · exact c10_detect_requires_inline_callback.2.1 [("x", "setX")] [] [] "useEffect"
      [.ArrowFunctionExpression (.BlockStatement
        [.ExpressionStatement (.CallExpression (.Identifier "setX") [.NumericLiteral 1])]),
       .ArrayExpression []] (by decide)
  · exact c10_detect_requires_inline_callback.2.2 [("x", "setX")]
      [("doWork", ["setX"])] [] "useEffect" (.Identifier "doWork") (by decide)

/-! ## C5: zero-argument setter inside a falsy guard -/

/-- C5 counterexample: the claim says a state setter invoked with zero
arguments inside a falsy guard on its own state variable (`if (!state)
setState()` in an effect body) receives no unconditional-modification
record; in fact the analyzer deliberately refuses the toggle-guard
classification when the callee IS the setter itself (the call would set
the state to `undefined` and loop), so the call is recorded as an
unconditional modification. -/
theorem c5_counterexample :
    (analyzeStateInteractions exFalsyGuardDirectBody
      [("state", "setState")] [] []).modifications = ["setState"] ∧
    (analyzeStateInteractions exFalsyGuardDirectBody
      [("state", "setState")] [] []).guardedModifications = [] := by
  exact ⟨rfl, rfl⟩

/-- C5 (amended): the documented intentional false negative is the
indirect form of the pattern: a zero-argument call to a local function
that transitively reaches the setter, inside a falsy guard on the state
variable (`if (!token) { fetchAndSetToken(); }`), is classified a safe
toggle-guard and receives neither an unconditional- nor a
conditional-modification record — while the direct zero-argument setter
call of the claim's example is recorded as an unconditional
modification. -/
theorem c5_falsy_guard_classification :
    (analyzeStateInteractions exFalsyGuardIndirectBody [("token", "setToken")] []
      [("fetchAndSetToken", ["setToken"])]).guardedModifications =
      [{ setter := "setToken", stateVariable := "token",
         guardType := "toggle-guard", isSafe := true, warning := none }] ∧
    (analyzeStateInteractions exFalsyGuardIndirectBody [("token", "setToken")] []
      [("fetchAndSetToken", ["setToken"])]).modifications = [] ∧
    (analyzeStateInteractions exFalsyGuardIndirectBody [("token", "setToken")] []
      [("fetchAndSetToken", ["setToken"])]).conditionalModifications = [] ∧
    (analyzeStateInteractions exFalsyGuardDirectBody
      [("state", "setState")] [] []).modifications = ["setState"] := by
  exact ⟨rfl, rfl, rfl, rfl⟩

/-! ## C2 and C3: guard conservatism and the derived-state classification -/

theorem isStateIdent_eq {sv : String} {n : Node} (h : isStateIdent sv n = true) :
    n = .Identifier sv := by
  cases n <;> simp_all [isStateIdent]

/-- Everything the first derived-state branch guarantees when it fires. -/
theorem renderDerivedEquivBranch_spec (sv : String) (call : Node)
    (left right : Node) (r : RenderPhaseGuardResult)
    (h : renderDerivedEquivBranch sv call left right = some r) :
    r = { isSafe := true, guardType := "derived-state", warning := none } ∧
    ∃ arg, (callArguments call).head? = some arg ∧
      ((left = .Identifier sv ∧ nodesAreEquivalent arg right = true) ∨
       (isStateIdent sv left = false ∧ right = .Identifier sv ∧
        nodesAreEquivalent arg left = true)) := by
  unfold renderDerivedEquivBranch at h
  by_cases hst : (isStateIdent sv left || isStateIdent sv right) = true
  · rw [if_pos hst] at h
    cases harg : (callArguments call).head? with
    | none => rw [harg] at h; exact Option.noConfusion h
    | some arg =>
      rw [harg] at h
      by_cases hL : isStateIdent sv left = true
      · simp only [hL, if_true] at h
        by_cases heqv : nodesAreEquivalent arg right = true
        · rw [if_pos heqv] at h
          cases h
          exact ⟨rfl, arg, rfl, Or.inl ⟨isStateIdent_eq hL, heqv⟩⟩
        · rw [if_neg heqv] at h; exact Option.noConfusion h
      · have hL' : isStateIdent sv left = false := by
          revert hL; cases isStateIdent sv left <;> simp
        have hR : isStateIdent sv right = true := by
          rcases (by simpa using hst :
              isStateIdent sv left = true ∨ isStateIdent sv right = true) with h1 | h1
          · exact absurd h1 hL
          · exact h1
        simp only [hL', Bool.false_eq_true, if_false] at h
        by_cases heqv : nodesAreEquivalent arg left = true
        · rw [if_pos heqv] at h
          cases h
          exact ⟨rfl, arg, rfl, Or.inr ⟨hL', isStateIdent_eq hR, heqv⟩⟩
        · rw [if_neg heqv] at h; exact Option.noConfusion h
  · rw [if_neg hst] at h; exact Option.noConfusion h

/-- Everything the second (reset-value) derived-state branch guarantees
when it fires. -/
theorem renderDerivedResetBranch_spec (call : Node) (left right : Node)
    (r : RenderPhaseGuardResult)
    (h : renderDerivedResetBranch call left right = some r) :
    r = { isSafe := true, guardType := "derived-state", warning := none } ∧
    isIdentOrMember left = true ∧ isIdentOrMember right = true ∧
    isResetArg (callArguments call).head? = true := by
  unfold renderDerivedResetBranch at h
  by_cases him : (isIdentOrMember left && isIdentOrMember right) = true
  · rw [if_pos him] at h
    by_cases hres : isResetArg (callArguments call).head? = true
    · rw [if_pos hres] at h
      cases h
      obtain ⟨h1, h2⟩ : isIdentOrMember left = true ∧ isIdentOrMember right = true := by
        simpa using him
      exact ⟨rfl, h1, h2, hres⟩
    · rw [if_neg hres] at h; exact Option.noConfusion h
  · rw [if_neg him] at h; exact Option.noConfusion h

/-- Size-bounded form of the render-condition specification: any
classification the render-phase condition analyzer produces is safe, its
condition shape is recognized, and a `derived-state` verdict implies one
of the two derived-state condition/argument combinations. -/
theorem renderGuardCond_spec_aux :
    ∀ (k : Nat) (c : Node), sizeOf c < k →
      ∀ (sv : String) (call : Node) (r : RenderPhaseGuardResult),
        analyzeRenderGuardCondition c sv call = some r →
        r.isSafe = true ∧ RecognizedRenderCond sv c ∧
        (r.guardType = "derived-state" → DerivedStateCond sv call c) := by
  intro k
  induction k with
  | zero => intro c hc; omega
  | succ k ih =>
    intro c hc sv call r h
    cases c
    case BinaryExpression op left right =>
      simp only [analyzeRenderGuardCondition] at h
      by_cases hop : (op == "!==" || op == "!=") = true
      · rw [if_pos hop] at h
        have hop' : op = "!==" ∨ op = "!=" := by simpa using hop
        cases heq : renderDerivedEquivBranch sv call left right with
        | some r0 =>
          rw [heq] at h
          dsimp only at h
          obtain ⟨hr0, arg, harg, hcases⟩ :=
            renderDerivedEquivBranch_spec sv call left right r0 heq
          subst hr0
          cases h
          refine ⟨rfl, ?_, fun _ => ?_⟩
          · rcases hcases with ⟨hl, _⟩ | ⟨_, hr, _⟩
            · exact RecognizedRenderCond.neqState op left right hop' (Or.inl hl)
            · exact RecognizedRenderCond.neqState op left right hop' (Or.inr hr)
          · exact DerivedStateCond.derivedEquiv op left right arg hop' harg hcases
        | none =>
          rw [heq] at h
          dsimp only at h
          obtain ⟨hr0, h1, h2, h3⟩ := renderDerivedResetBranch_spec call left right r h
          subst hr0
          exact ⟨rfl, RecognizedRenderCond.neqComparands op left right hop' h1 h2,
            fun _ => DerivedStateCond.derivedReset op left right hop' h1 h2 h3⟩
      · rw [if_neg hop] at h; exact Option.noConfusion h
    case UnaryExpression op arg =>
      simp only [analyzeRenderGuardCondition] at h
      by_cases hop : (op == "!") = true
      · rw [if_pos hop] at h
        cases arg
        next n =>
          dsimp only at h
          by_cases hn : (n == sv) = true
          · rw [if_pos hn] at h
            have hop' : op = "!" := eq_of_beq hop
            have hn' : n = sv := eq_of_beq hn
            subst hop'; subst hn'
            cases harg : (callArguments call).head? with
            | none => rw [harg] at h; exact Option.noConfusion h
            | some sa =>
              rw [harg] at h
              dsimp only at h
              by_cases hf : (!isFalsyLiteralNode (some sa)) = true
              · rw [if_pos hf] at h
                cases h
                exact ⟨rfl, RecognizedRenderCond.negState, fun habs => absurd habs (by decide)⟩
              · rw [if_neg hf] at h; exact Option.noConfusion h
          · rw [if_neg hn] at h; exact Option.noConfusion h
        all_goals exact Option.noConfusion h
      · rw [if_neg hop] at h; exact Option.noConfusion h
    case Identifier n =>
      simp only [analyzeRenderGuardCondition] at h
      by_cases hn : (n == sv) = true
      · rw [if_pos hn] at h
        have hn' : n = sv := eq_of_beq hn
        subst hn'
        by_cases hf : isFalsyLiteralNode (callArguments call).head? = true
        · rw [if_pos hf] at h
          cases h
          exact ⟨rfl, RecognizedRenderCond.bareState, fun habs => absurd habs (by decide)⟩
        · rw [if_neg hf] at h; exact Option.noConfusion h
      · rw [if_neg hn] at h; exact Option.noConfusion h
    case LogicalExpression op l rr =>
      simp only [analyzeRenderGuardCondition] at h
      by_cases hop : (op == "&&") = true
      · rw [if_pos hop] at h
        have hop' : op = "&&" := eq_of_beq hop
        subst hop'
        have hsl : sizeOf l < k := by
          have := Node.LogicalExpression.sizeOf_spec "&&" l rr
          omega
        have hsr : sizeOf rr < k := by
          have := Node.LogicalExpression.sizeOf_spec "&&" l rr
          omega
        cases hl : analyzeRenderGuardCondition l sv call with
        | some g =>
          rw [hl] at h
          dsimp only at h
          by_cases hgs : g.isSafe = true
          · rw [if_pos hgs] at h
            obtain ⟨hs, hrec, hder⟩ := ih l hsl sv call g hl
            cases h
            exact ⟨hs, RecognizedRenderCond.andLeft l rr hrec,
              fun hd => DerivedStateCond.andLeft l rr (hder hd)⟩
          · rw [if_neg hgs] at h
            cases hr2 : analyzeRenderGuardCondition rr sv call with
            | some g2 =>
              rw [hr2] at h
              dsimp only at h
              by_cases hg2 : g2.isSafe = true
              · rw [if_pos hg2] at h
                obtain ⟨hs, hrec, hder⟩ := ih rr hsr sv call g2 hr2
                cases h
                exact ⟨hs, RecognizedRenderCond.andRight l rr hrec,
                  fun hd => DerivedStateCond.andRight l rr (hder hd)⟩
              · rw [if_neg hg2] at h; exact Option.noConfusion h
            | none => rw [hr2] at h; exact Option.noConfusion h
        | none =>
          rw [hl] at h
          dsimp only at h
          cases hr2 : analyzeRenderGuardCondition rr sv call with
          | some g2 =>
            rw [hr2] at h
            dsimp only at h
            by_cases hg2 : g2.isSafe = true
            · rw [if_pos hg2] at h
              obtain ⟨hs, hrec, hder⟩ := ih rr hsr sv call g2 hr2
              cases h
              exact ⟨hs, RecognizedRenderCond.andRight l rr hrec,
                fun hd => DerivedStateCond.andRight l rr (hder hd)⟩
            · rw [if_neg hg2] at h; exact Option.noConfusion h
          | none => rw [hr2] at h; exact Option.noConfusion h
      · rw [if_neg hop] at h; exact Option.noConfusion h
    all_goals exact Option.noConfusion h

/-- The render-condition specification (wrapper over the size-bounded
form). -/
theorem renderGuardCond_spec (c : Node) (sv : String) (call : Node)
    (r : RenderPhaseGuardResult) (h : analyzeRenderGuardCondition c sv call = some r) :
    r.isSafe = true ∧ RecognizedRenderCond sv c ∧
    (r.guardType = "derived-state" → DerivedStateCond sv call c) :=
  renderGuardCond_spec_aux (sizeOf c + 1) c (by omega) sv call r h

/-- Size-bounded form: any classification the effect-guard condition
analyzer produces is for a recognized condition shape. -/
theorem analyzeCondition_recognized_aux :
    ∀ (k : Nat) (c : Node), sizeOf c < k →
      ∀ (sv : String) (call : Node) (sn : Option String) (r : CondGuardResult),
        analyzeCondition c sv call sn = some r → RecognizedEffectCond sv c := by
  intro k
  induction k with
  | zero => intro c hc; omega
  | succ k ih =>
    intro c hc sv call sn r h
    cases c
    case UnaryExpression op arg =>
      simp only [analyzeCondition] at h
      by_cases hop : (op == "!") = true
      · rw [if_pos hop] at h
        cases arg
        next n =>
          dsimp only at h
          by_cases hn : (n == sv) = true
          · have hop' : op = "!" := eq_of_beq hop
            have hn' : n = sv := eq_of_beq hn
            subst hop'; subst hn'
            exact RecognizedEffectCond.negState
          · rw [if_neg hn] at h; exact Option.noConfusion h
        all_goals exact Option.noConfusion h
      · rw [if_neg hop] at h; exact Option.noConfusion h
    case Identifier n =>
      simp only [analyzeCondition] at h
      by_cases hn : (n == sv) = true
      · have hn' : n = sv := eq_of_beq hn
        subst hn'
        exact RecognizedEffectCond.bareState
      · rw [if_neg hn] at h; exact Option.noConfusion h
    case BinaryExpression op left right =>
      simp only [analyzeCondition] at h
      by_cases hop : (op == "!==" || op == "!=") = true
      · rw [if_pos hop] at h
        have hop' : op = "!==" ∨ op = "!=" := by simpa using hop
        by_cases hst : (isStateIdent sv left || isStateIdent sv right) = true
        · refine RecognizedEffectCond.neqState op left right hop' ?_
          rcases (by simpa using hst :
              isStateIdent sv left = true ∨ isStateIdent sv right = true) with h1 | h1
          · exact Or.inl (isStateIdent_eq h1)
          · exact Or.inr (isStateIdent_eq h1)
        · rw [if_neg hst] at h
          by_cases hmem : (isMemberOfState sv left || isMemberOfState sv right) = true
          · exact RecognizedEffectCond.neqStateMember op left right hop'
              (by simpa using hmem)
          · rw [if_neg hmem] at h; exact Option.noConfusion h
      · rw [if_neg hop] at h; exact Option.noConfusion h
    case LogicalExpression op l rr =>
      simp only [analyzeCondition] at h
      by_cases hop : (op == "&&") = true
      · rw [if_pos hop] at h
        have hop' : op = "&&" := eq_of_beq hop
        subst hop'
        have hsl : sizeOf l < k := by
          have := Node.LogicalExpression.sizeOf_spec "&&" l rr
          omega
        have hsr : sizeOf rr < k := by
          have := Node.LogicalExpression.sizeOf_spec "&&" l rr
          omega
        cases hl : analyzeCondition l sv call sn with
        | some g =>
          rw [hl] at h
          dsimp only at h
          by_cases hgs : g.isSafe = true
          · exact RecognizedEffectCond.andLeft l rr (ih l hsl sv call sn g hl)
          · rw [if_neg hgs] at h
            cases hr2 : analyzeCondition rr sv call sn with
            | some g2 =>
              exact RecognizedEffectCond.andRight l rr (ih rr hsr sv call sn g2 hr2)
            | none => rw [hr2] at h; exact Option.noConfusion h
        | none =>
          rw [hl] at h
          dsimp only at h
          cases hr2 : analyzeCondition rr sv call sn with
          | some g2 =>
            exact RecognizedEffectCond.andRight l rr (ih rr hsr sv call sn g2 hr2)
          | none => rw [hr2] at h; exact Option.noConfusion h
      · rw [if_neg hop] at h; exact Option.noConfusion h
    all_goals exact Option.noConfusion h

/-- The scan of `analyzeRenderPhaseGuard` either falls through to the
conservative `unknown` verdict or returns the classification of some
enclosing `IfStatement` condition. -/
theorem renderScan_some (call : Node) (sv : String) :
    ∀ (l : List Node) (g : Bool) (r : RenderPhaseGuardResult),
      renderGuardScan call sv l g = some r →
      r = { isSafe := false, guardType := "unknown", warning := none } ∨
      ∃ t co alt, Node.IfStatement t co alt ∈ l ∧
        analyzeRenderGuardCondition t sv call = some r := by
  intro l
  induction l with
  | nil =>
    intro g r h
    cases g
    · exact Option.noConfusion h
    · simp only [renderGuardScan, if_true] at h
      cases h
      exact Or.inl rfl
  | cons a rest ih =>
    intro g r h
    cases a
    case IfStatement t co alt =>
      simp only [renderGuardScan] at h
      cases hc : analyzeRenderGuardCondition t sv call with
      | some r0 =>
        rw [hc] at h
        cases h
        exact Or.inr ⟨t, co, alt, List.mem_cons_self _ _, hc⟩
      | none =>
        rw [hc] at h
        rcases ih true r h with h1 | ⟨t2, co2, alt2, hmem, hcond⟩
        · exact Or.inl h1
        · exact Or.inr ⟨t2, co2, alt2, List.mem_cons_of_mem _ hmem, hcond⟩
    all_goals
      simp only [renderGuardScan] at h
    all_goals
      rcases ih g r h with h1 | ⟨t2, co2, alt2, hmem, hcond⟩
      · exact Or.inl h1
      · exact Or.inr ⟨t2, co2, alt2, List.mem_cons_of_mem _ hmem, hcond⟩

/-- When the scan sees at least one `IfStatement` (or is already below
one) but every enclosing `if`-condition is unrecognized, it returns the
conservative unknown/unsafe verdict. -/
theorem renderScan_unknown (call : Node) (sv : String) :
    ∀ (l : List Node) (g : Bool),
      (∀ t co alt, Node.IfStatement t co alt ∈ l →
        analyzeRenderGuardCondition t sv call = none) →
      (l.any isIfStatementB = true ∨ g = true) →
      renderGuardScan call sv l g =
        some { isSafe := false, guardType := "unknown", warning := none } := by
  intro l
  induction l with
  | nil =>
    intro g hnone hany
    rcases hany with h1 | h1
    · simp at h1
    · subst h1
      rfl
  | cons a rest ih =>
    intro g hnone hany
    cases a
    case IfStatement t co alt =>
      have hc : analyzeRenderGuardCondition t sv call = none :=
        hnone t co alt (List.mem_cons_self _ _)
      simp only [renderGuardScan, hc]
      exact ih true (fun t2 co2 alt2 hm => hnone t2 co2 alt2 (List.mem_cons_of_mem _ hm))
        (Or.inr rfl)
    all_goals
      simp only [renderGuardScan]
    all_goals
      refine ih g (fun t2 co2 alt2 hm => hnone t2 co2 alt2 (List.mem_cons_of_mem _ hm)) ?_
    all_goals
      rcases hany with h1 | h1
      · simp only [List.any_cons, isIfStatementB, Bool.false_or] at h1
        exact Or.inl h1
      · exact Or.inr h1

/-- C2: Guard conservatism.  (1) The effect-guard variant classifies a
condition only when its shape is recognized, so an unrecognized shape
never yields `isSafe = true`.  (2) The render-phase condition analyzer
likewise classifies only recognized shapes, and every classification it
returns is safe.  (3) Whenever a render-phase setter call is enclosed by
at least one `IfStatement` but no enclosing condition is recognized,
`analyzeRenderPhaseGuard` returns exactly `{ isSafe := false, guardType :=
"unknown" }` — not `none` and not a safe verdict. -/
theorem c2_guard_conservatism :
    (∀ (c : Node) (sv : String) (call : Node) (sn : Option String) (r : CondGuardResult),
      analyzeCondition c sv call sn = some r → RecognizedEffectCond sv c) ∧
    (∀ (c : Node) (sv : String) (call : Node) (r : RenderPhaseGuardResult),
      analyzeRenderGuardCondition c sv call = some r →
        r.isSafe = true ∧ RecognizedRenderCond sv c) ∧
    (∀ (call : Node) (stack : List Node) (sv : String),
      (stack.drop 1).any isIfStatementB = true →
      (∀ t co alt, Node.IfStatement t co alt ∈ stack.drop 1 →
        analyzeRenderGuardCondition t sv call = none) →
      analyzeRenderPhaseGuard call stack sv =
        some { isSafe := false, guardType := "unknown", warning := none }) := by
  refine ⟨?_, ?_, ?_⟩
  · intro c sv call sn r h
    exact analyzeCondition_recognized_aux (sizeOf c + 1) c (by omega) sv call sn r h
  · intro c sv call r h
    obtain ⟨h1, h2, _⟩ := renderGuardCond_spec c sv call r h
    exact ⟨h1, h2⟩
  · intro call stack sv hany hnone
    exact renderScan_unknown call sv (stack.drop 1) false hnone (Or.inl hany)

/-- Witness for C2 at a concrete input: the setter call in
`if (check()) setState(1);` is enclosed by an `IfStatement` whose
call-expression condition is not a recognized shape, and the render-phase
guard verdict is exactly unknown/unsafe. -/
theorem c2_witness :
    analyzeRenderPhaseGuard exUnknownGuardCall exUnknownGuardStack "state" =
      some { isSafe := false, guardType := "unknown", warning := none } := by
  apply c2_guard_conservatism.2.2 exUnknownGuardCall exUnknownGuardStack "state"
  · decide
  · intro t co alt hmem
    simp only [exUnknownGuardStack, exUnknownGuardCall, List.drop_succ_cons,
      List.drop_zero, List.mem_cons, List.not_mem_nil, or_false] at hmem
    rcases hmem with h1 | h1
    · exact Node.noConfusion h1
    · injection h1 with ht hco halt
      subst ht
      rfl

/-! ### C3 -/

/-- C3 counterexample: the render-phase variant classifies
`if (a !== b) setState(null)` as safe `derived-state` although the
comparison involves neither the state variable (`state`) nor anything
structurally equivalent to the setter argument: the reset-value branch
fires on any `!==` comparison between two identifiers when the argument is
a constant reset value. -/
theorem c3_counterexample :
    analyzeRenderPhaseGuard exResetCall exResetStack "state" =
      some { isSafe := true, guardType := "derived-state", warning := none } ∧
    conditionInvolvesState exResetCond "state" = false ∧
    nodesAreEquivalent .NullLiteral (.Identifier "a") = false ∧
    nodesAreEquivalent .NullLiteral (.Identifier "b") = false := by
  exact ⟨rfl, rfl, rfl, rfl⟩

/-- C3 (amended): the render-phase variant classifies a setter call as
safe `derived-state` only when some enclosing if-condition (the search
continuing past unrecognized inner `if`s) is a `!==`/`!=` comparison and
either (a) one side is the state variable and the setter's argument is
structurally equivalent — by recursive AST shape comparison treating
`.prop` and the bracketed string form as equal — to the other side, or
(b) both sides are identifiers or member expressions and the setter's
argument is a constant reset value (`null`, `undefined`, `false`, an
empty array/object literal, `0`, or the empty string); either form may sit
under `&&`. -/
theorem c3_derived_state_only_for_derived_shapes
    (call : Node) (stack : List Node) (sv : String) (r : RenderPhaseGuardResult)
    (h : analyzeRenderPhaseGuard call stack sv = some r)
    (hd : r.guardType = "derived-state") :
    ∃ t co alt, Node.IfStatement t co alt ∈ stack.drop 1 ∧
      DerivedStateCond sv call t := by
  rcases renderScan_some call sv (stack.drop 1) false r h with h1 | ⟨t, co, alt, hmem, hcond⟩
  · subst h1
    exact absurd hd (by decide)
  · obtain ⟨_, _, hder⟩ := renderGuardCond_spec t sv call r hcond
    exact ⟨t, co, alt, hmem, hder hd⟩

/-- Witness for C3 at a concrete input: the classic derived-state pattern
`if (prop !== prev) setPrev(prop);` is classified `derived-state`, and the
theorem recovers the enclosing comparison together with its derived-state
condition/argument combination. -/
theorem c3_witness :
    ∃ t co alt, Node.IfStatement t co alt ∈ exDerivedStack.drop 1 ∧
      DerivedStateCond "prev" exDerivedCall t :=
  c3_derived_state_only_for_derived_shapes exDerivedCall exDerivedStack "prev"
    { isSafe := true, guardType := "derived-state", warning := none } rfl rfl

/-! ## C1: each direct setter call lands in exactly one bucket -/

/-- Per-step behavior of the main pass on a direct call to a known state
setter, for an arbitrary interaction context: the call contributes to
exactly one of the deferred / cleanup / guarded(+conditional) /
unconditional buckets, with deferral taking precedence over cleanup and
both exempting the call from guard analysis and from `modifications`. -/
theorem mainPassStep_direct_setter (ctx : InteractionContext) (st : StateInteraction)
    (p : Path) (stk : List Node) (calleeName : String) (args : List Node)
    (hsetter : (ctxSetterNames ctx).contains calleeName = true) :
    (let e : Entry := { node := .CallExpression (.Identifier calleeName) args,
                        path := p, stack := stk }
     let st1 := mainPassStep ctx st e
     (isInsideAsyncCallback ctx e.path = true →
        st1.deferredModifications = st.deferredModifications ++ [calleeName] ∧
        st1.cleanupModifications = st.cleanupModifications ∧
        st1.modifications = st.modifications ∧
        st1.conditionalModifications = st.conditionalModifications ∧
        st1.guardedModifications = st.guardedModifications) ∧
     (isInsideAsyncCallback ctx e.path = false →
      isInsideCleanupFunction ctx e.path = true →
        st1.cleanupModifications = st.cleanupModifications ++ [calleeName] ∧
        st1.deferredModifications = st.deferredModifications ∧
        st1.modifications = st.modifications ∧
        st1.conditionalModifications = st.conditionalModifications ∧
        st1.guardedModifications = st.guardedModifications) ∧
     (isInsideAsyncCallback ctx e.path = false →
      isInsideCleanupFunction ctx e.path = false →
        (∀ g, analyzeConditionalGuard e.node e.stack calleeName
            (setterToState ctx.stateInfo calleeName) = some g →
          st1.guardedModifications = st.guardedModifications ++ [g] ∧
          st1.conditionalModifications =
            (if g.isSafe then st.conditionalModifications
             else st.conditionalModifications ++ [calleeName]) ∧
          st1.modifications = st.modifications ∧
          st1.deferredModifications = st.deferredModifications ∧
          st1.cleanupModifications = st.cleanupModifications) ∧
        (analyzeConditionalGuard e.node e.stack calleeName
            (setterToState ctx.stateInfo calleeName) = none →
          st1.modifications = st.modifications ++ [calleeName] ∧
          st1.deferredModifications = st.deferredModifications ∧
          st1.cleanupModifications = st.cleanupModifications ∧
          st1.conditionalModifications = st.conditionalModifications ∧
          st1.guardedModifications = st.guardedModifications))) := by
  dsimp only
  have hstep :
      mainPassStep ctx st
        { node := .CallExpression (.Identifier calleeName) args, path := p, stack := stk } =
      (if (match args.head? with
           | some a => isFunctionExpressionNode a
           | none => false) then
        { directSetterUpdate ctx st
            { node := .CallExpression (.Identifier calleeName) args,
              path := p, stack := stk } calleeName with
          functionalUpdates :=
            (directSetterUpdate ctx st
              { node := .CallExpression (.Identifier calleeName) args,
                path := p, stack := stk } calleeName).functionalUpdates ++ [calleeName] }
       else directSetterUpdate ctx st
         { node := .CallExpression (.Identifier calleeName) args,
           path := p, stack := stk } calleeName) := by
    simp only [mainPassStep, hsetter, if_true]
  rw [hstep]
  have hbuckets :
      ∀ d : StateInteraction,
        ((if (match args.head? with
              | some a => isFunctionExpressionNode a
              | none => false) then
           { d with functionalUpdates := d.functionalUpdates ++ [calleeName] }
          else d).deferredModifications = d.deferredModifications ∧
         (if (match args.head? with
              | some a => isFunctionExpressionNode a
              | none => false) then
           { d with functionalUpdates := d.functionalUpdates ++ [calleeName] }
          else d).cleanupModifications = d.cleanupModifications ∧
         (if (match args.head? with
              | some a => isFunctionExpressionNode a
              | none => false) then
           { d with functionalUpdates := d.functionalUpdates ++ [calleeName] }
          else d).modifications = d.modifications ∧
         (if (match args.head? with
              | some a => isFunctionExpressionNode a
              | none => false) then
           { d with functionalUpdates := d.functionalUpdates ++ [calleeName] }
          else d).conditionalModifications = d.conditionalModifications ∧
         (if (match args.head? with
              | some a => isFunctionExpressionNode a
              | none => false) then
           { d with functionalUpdates := d.functionalUpdates ++ [calleeName] }
          else d).guardedModifications = d.guardedModifications) := by
    intro d
    split <;> exact ⟨rfl, rfl, rfl, rfl, rfl⟩
  obtain ⟨hb1, hb2, hb3, hb4, hb5⟩ := hbuckets
    (directSetterUpdate ctx st
      { node := .CallExpression (.Identifier calleeName) args,
        path := p, stack := stk } calleeName)
  refine ⟨?_, ?_, ?_⟩
  · intro hasync
    rw [hb1, hb2, hb3, hb4, hb5]
    simp only [directSetterUpdate, hasync, if_true]
    refine ⟨?_, ?_, ?_, ?_, ?_⟩ <;> trivial
  · intro hasync hcleanup
    rw [hb1, hb2, hb3, hb4, hb5]
    simp only [directSetterUpdate, hasync, hcleanup, Bool.false_eq_true, if_false, if_true]
    refine ⟨?_, ?_, ?_, ?_, ?_⟩ <;> trivial
  · intro hasync hcleanup
    constructor
    · intro g hg
      rw [hb1, hb2, hb3, hb4, hb5]
      simp only [directSetterUpdate, hasync, hcleanup, Bool.false_eq_true, if_false, hg]
      refine ⟨?_, ?_, ?_, ?_, ?_⟩ <;> trivial
    · intro hg
      rw [hb1, hb2, hb3, hb4, hb5]
      simp only [directSetterUpdate, hasync, hcleanup, Bool.false_eq_true, if_false, hg]
      refine ⟨?_, ?_, ?_, ?_, ?_⟩ <;> trivial

/-- C1: For every effect body, every occurrence in it of a direct call to
a known state setter is recorded by the main pass of
`analyzeStateInteractions` in exactly one bucket: `deferredModifications`
when the occurrence lies inside a callback registered (inline or by
named-reference resolution) with an allowlisted deferred-receiver API;
otherwise `cleanupModifications` when it lies inside a closure returned
from the effect body; otherwise a `guardedModifications` record (plus
`conditionalModifications` exactly when the guard is unsafe); otherwise an
unconditional entry in `modifications`.  Deferred and cleanup calls are
never added to `modifications` or `conditionalModifications`. -/
theorem c1_direct_setter_single_bucket
    (hookBody : Node) (stateInfo : List (String × String)) (refVars : List String)
    (localFunctionSetters : List (String × List String))
    (st : StateInteraction) (e : Entry) (calleeName : String) (args : List Node)
    (k : Nat)
    (hk : (descendantEntries hookBody).get? k = some e)
    (hnode : e.node = .CallExpression (.Identifier calleeName) args)
    (hsetter : (stateInfo.map (·.2)).contains calleeName = true) :
    (let ctx := (buildInteractionContext hookBody stateInfo refVars localFunctionSetters).1
     let st1 := mainPassStep ctx st e
     (isInsideAsyncCallback ctx e.path = true →
        st1.deferredModifications = st.deferredModifications ++ [calleeName] ∧
        st1.cleanupModifications = st.cleanupModifications ∧
        st1.modifications = st.modifications ∧
        st1.conditionalModifications = st.conditionalModifications ∧
        st1.guardedModifications = st.guardedModifications) ∧
     (isInsideAsyncCallback ctx e.path = false →
      isInsideCleanupFunction ctx e.path = true →
        st1.cleanupModifications = st.cleanupModifications ++ [calleeName] ∧
        st1.deferredModifications = st.deferredModifications ∧
        st1.modifications = st.modifications ∧
        st1.conditionalModifications = st.conditionalModifications ∧
        st1.guardedModifications = st.guardedModifications) ∧
     (isInsideAsyncCallback ctx e.path = false →
      isInsideCleanupFunction ctx e.path = false →
        (∀ g, analyzeConditionalGuard e.node e.stack calleeName
            (setterToState ctx.stateInfo calleeName) = some g →
          st1.guardedModifications = st.guardedModifications ++ [g] ∧
          st1.conditionalModifications =
            (if g.isSafe then st.conditionalModifications
             else st.conditionalModifications ++ [calleeName]) ∧
          st1.modifications = st.modifications ∧
          st1.deferredModifications = st.deferredModifications ∧
          st1.cleanupModifications = st.cleanupModifications) ∧
        (analyzeConditionalGuard e.node e.stack calleeName
            (setterToState ctx.stateInfo calleeName) = none →
          st1.modifications = st.modifications ++ [calleeName] ∧
          st1.deferredModifications = st.deferredModifications ∧
          st1.cleanupModifications = st.cleanupModifications ∧
          st1.conditionalModifications = st.conditionalModifications ∧
          st1.guardedModifications = st.guardedModifications))) := by
  obtain ⟨n, pth, stk⟩ := e
  dsimp only at hnode
  subst hnode
  exact mainPassStep_direct_setter
    (buildInteractionContext hookBody stateInfo refVars localFunctionSetters).1
    st pth stk calleeName args hsetter

/-- Witness for C1 at a concrete input: in the effect body
`() => { setTimeout(() => { setX(1); }, 1000); }` the occurrence of
`setX(1)` (the eighth visited descendant) lies inside the deferred
callback and is recorded in `deferredModifications` only. -/
theorem c1_witness :
    (mainPassStep
      (buildInteractionContext exDeferredBody [("x", "setX")] [] []).1
      emptyInteraction
      { node := .CallExpression (.Identifier "setX") [.NumericLiteral 1],
        path := [0, 0, 0, 1, 0, 0, 0],
        stack :=
          [.CallExpression (.Identifier "setX") [.NumericLiteral 1],
           .ExpressionStatement (.CallExpression (.Identifier "setX") [.NumericLiteral 1]),
           .BlockStatement
             [.ExpressionStatement (.CallExpression (.Identifier "setX") [.NumericLiteral 1])],
           .ArrowFunctionExpression (.BlockStatement
             [.ExpressionStatement (.CallExpression (.Identifier "setX") [.NumericLiteral 1])]),
           .CallExpression (.Identifier "setTimeout")
             [.ArrowFunctionExpression (.BlockStatement
               [.ExpressionStatement (.CallExpression (.Identifier "setX") [.NumericLiteral 1])]),
              .NumericLiteral 1000],
           .ExpressionStatement (.CallExpression (.Identifier "setTimeout")
             [.ArrowFunctionExpression (.BlockStatement
               [.ExpressionStatement (.CallExpression (.Identifier "setX") [.NumericLiteral 1])]),
              .NumericLiteral 1000]),
           .BlockStatement
             [.ExpressionStatement (.CallExpression (.Identifier "setTimeout")
               [.ArrowFunctionExpression (.BlockStatement
                 [.ExpressionStatement (.CallExpression (.Identifier "setX") [.NumericLiteral 1])]),
                .NumericLiteral 1000])],
           exDeferredBody] }).deferredModifications = ["setX"] ∧
    (mainPassStep
      (buildInteractionContext exDeferredBody [("x", "setX")] [] []).1
      emptyInteraction
      { node := .CallExpression (.Identifier "setX") [.NumericLiteral 1],
        path := [0, 0, 0, 1, 0, 0, 0],
        stack :=
          [.CallExpression (.Identifier "setX") [.NumericLiteral 1],
           .ExpressionStatement (.CallExpression (.Identifier "setX") [.NumericLiteral 1]),
           .BlockStatement
             [.ExpressionStatement (.CallExpression (.Identifier "setX") [.NumericLiteral 1])],
           .ArrowFunctionExpression (.BlockStatement
             [.ExpressionStatement (.CallExpression (.Identifier "setX") [.NumericLiteral 1])]),
           .CallExpression (.Identifier "setTimeout")
             [.ArrowFunctionExpression (.BlockStatement
               [.ExpressionStatement (.CallExpression (.Identifier "setX") [.NumericLiteral 1])]),
              .NumericLiteral 1000],
           .ExpressionStatement (.CallExpression (.Identifier "setTimeout")
             [.ArrowFunctionExpression (.BlockStatement
               [.ExpressionStatement (.CallExpression (.Identifier "setX") [.NumericLiteral 1])]),
              .NumericLiteral 1000]),
           .BlockStatement
             [.ExpressionStatement (.CallExpression (.Identifier "setTimeout")
               [.ArrowFunctionExpression (.BlockStatement
                 [.ExpressionStatement (.CallExpression (.Identifier "setX") [.NumericLiteral 1])]),
                .NumericLiteral 1000])],
           exDeferredBody] }).modifications = [] := by
  have h := c1_direct_setter_single_bucket exDeferredBody [("x", "setX")] [] []
    emptyInteraction
    { node := .CallExpression (.Identifier "setX") [.NumericLiteral 1],
      path := [0, 0, 0, 1, 0, 0, 0],
      stack :=
        [.CallExpression (.Identifier "setX") [.NumericLiteral 1],
         .ExpressionStatement (.CallExpression (.Identifier "setX") [.NumericLiteral 1]),
         .BlockStatement
           [.ExpressionStatement (.CallExpression (.Identifier "setX") [.NumericLiteral 1])],
         .ArrowFunctionExpression (.BlockStatement
           [.ExpressionStatement (.CallExpression (.Identifier "setX") [.NumericLiteral 1])]),
         .CallExpression (.Identifier "setTimeout")
           [.ArrowFunctionExpression (.BlockStatement
             [.ExpressionStatement (.CallExpression (.Identifier "setX") [.NumericLiteral 1])]),
            .NumericLiteral 1000],
         .ExpressionStatement (.CallExpression (.Identifier "setTimeout")
           [.ArrowFunctionExpression (.BlockStatement
             [.ExpressionStatement (.CallExpression (.Identifier "setX") [.NumericLiteral 1])]),
            .NumericLiteral 1000]),
         .BlockStatement
           [.ExpressionStatement (.CallExpression (.Identifier "setTimeout")
             [.ArrowFunctionExpression (.BlockStatement
               [.ExpressionStatement (.CallExpression (.Identifier "setX") [.NumericLiteral 1])]),
              .NumericLiteral 1000])],
         exDeferredBody] }
    "setX" [.NumericLiteral 1] 7 (by rfl) rfl (by decide)
  have h1 := h.1 (by decide)
  exact ⟨by simpa using h1.1, by simpa using h1.2.2.1⟩

end ReactLoopDetector
